import Mathlib

/-!
Verification of the swap repository's transaction-construction and signing
core (XinFin provider under `src/swap/providers/xinfin`, plus the Vapor
refund signature facade evidenced by `src/cryptocurrencies/vapor/refund.py`
and the bitcoin utils test under `src/tests`).

Strings from the Python source are embedded as lists of character codes
(`List Nat`), so that "byte-identical" statements are literal list
equalities.  The chain RPC, wallet derivation, ABI encoding and the
native signing algorithm are external collaborators (spec section 6) and are
embedded as explicit environment parameters; everything written in the
repository's own files is translated directly.
-/

namespace SwapSpec

/-- Character codes of a Lean string literal, used to embed Python string
literals byte for byte. -/
def codes (s : String) : List Nat :=
  s.data.map Char.toNat

example : codes ("null") = [110, 117, 108, 108] := by decide

/-- All character codes of a serialized payload are bytes. -/
def ByteBound (l : List Nat) : Prop :=
  ∀ c ∈ l, c < 256

theorem byteBound_append {a b : List Nat} (ha : ByteBound a) (hb : ByteBound b) :
    ByteBound (a ++ b) := by
  intro c hc
  rcases List.mem_append.mp hc with h | h
  · exact ha c h
  · exact hb c h

theorem byteBound_cons {a : Nat} {l : List Nat} (ha : a < 256) (hl : ByteBound l) :
    ByteBound (a :: l) := by
  intro c hc
  rcases List.mem_cons.mp hc with h | h
  · omega
  · exact hl c h

theorem byteBound_of_all {l : List Nat}
    (h : (l.all fun c => decide (c < 256)) = true) : ByteBound l := by
  intro c hc
  have := List.all_eq_true.mp h c hc
  simpa using this

/-- Well-formed embedded string: printable ASCII with no JSON-escaping
characters (no quote, no backslash).  Every string the builders store
(hex addresses, hex data, network and type tags) satisfies this. -/
def wfStrB (s : List Nat) : Bool :=
  s.all fun c => decide (32 ≤ c ∧ c < 128 ∧ c ≠ 34 ∧ c ≠ 92)

theorem wfStrB_no_quote {s : List Nat} (h : wfStrB s = true) : 34 ∉ s := by
  intro hm
  have := List.all_eq_true.mp h 34 hm
  simp at this

theorem wfStrB_bound {s : List Nat} (h : wfStrB s = true) : ByteBound s := by
  intro c hc
  have := List.all_eq_true.mp h c hc
  simp at this
  omega

/-! Decimal rendering of a natural number, as Python `json.dumps` renders an
`int` (sequence of ASCII digit codes, no sign, no leading zeros). -/

/-- Auxiliary decimal renderer accumulating digits from the right. -/
def natReprAux (n : Nat) (acc : List Nat) : List Nat :=
  if h : n < 10 then (n + 48) :: acc
  else natReprAux (n / 10) ((n % 10 + 48) :: acc)
termination_by n
decreasing_by
  exact Nat.div_lt_self (by omega) (by omega)

/-- Decimal digit codes of `n`, e.g. `natRepr 138448 = codes "138448"`. -/
def natRepr (n : Nat) : List Nat :=
  natReprAux n []

theorem natReprAux_eq (n : Nat) (acc : List Nat) :
    natReprAux n acc
      = if n < 10 then (n + 48) :: acc
        else natReprAux (n / 10) ((n % 10 + 48) :: acc) := by
  rw [natReprAux]
  split <;> rfl

theorem natReprAux_acc (n : Nat) : ∀ acc, natReprAux n acc = natReprAux n [] ++ acc := by
  induction n using Nat.strong_induction_on with
  | _ n ih =>
    intro acc
    by_cases h : n < 10
    · rw [natReprAux_eq n acc, natReprAux_eq n [], if_pos h, if_pos h]
      rfl
    · rw [natReprAux_eq n acc, natReprAux_eq n [], if_neg h, if_neg h]
      have hd : n / 10 < n := Nat.div_lt_self (by omega) (by omega)
      rw [ih (n / 10) hd ((n % 10 + 48) :: acc), ih (n / 10) hd ((n % 10 + 48) :: [])]
      simp

theorem natRepr_step {n : Nat} (h : ¬ n < 10) :
    natRepr n = natRepr (n / 10) ++ [n % 10 + 48] := by
  rw [natRepr, natReprAux_eq, if_neg h, natReprAux_acc]
  rfl

theorem natRepr_small {n : Nat} (h : n < 10) : natRepr n = [n + 48] := by
  rw [natRepr, natReprAux_eq, if_pos h]

theorem natRepr_digits (n : Nat) : ∀ d ∈ natRepr n, 48 ≤ d ∧ d ≤ 57 := by
  induction n using Nat.strong_induction_on with
  | _ n ih =>
    by_cases h : n < 10
    · rw [natRepr_small h]
      intro d hd
      have : d = n + 48 := by simpa using hd
      omega
    · rw [natRepr_step h]
      intro d hd
      rcases List.mem_append.mp hd with h1 | h1
      · exact ih (n / 10) (Nat.div_lt_self (by omega) (by omega)) d h1
      · have h2 : d = n % 10 + 48 := by simpa using h1
        have h3 := Nat.mod_lt n (show 0 < 10 by omega)
        omega

theorem natRepr_ne_nil (n : Nat) : natRepr n ≠ [] := by
  by_cases h : n < 10
  · rw [natRepr_small h]
    simp
  · rw [natRepr_step h]
    simp

theorem natRepr_bound (n : Nat) : ByteBound (natRepr n) := by
  intro c hc
  have := natRepr_digits n c hc
  omega

/-- Head of the decimal rendering is a digit code. -/
theorem natRepr_head (n : Nat) :
    ∃ d t, natRepr n = d :: t ∧ 48 ≤ d ∧ d ≤ 57 := by
  rcases hr : natRepr n with _ | ⟨d, t⟩
  · exact absurd hr (natRepr_ne_nil n)
  · have := natRepr_digits n d (by rw [hr]; exact List.mem_cons_self _ _)
    exact ⟨d, t, rfl, this.1, this.2⟩

/-- Numeric value of a run of decimal digit codes (the parse of what
`natRepr` prints). -/
def digitsVal (l : List Nat) : Nat :=
  l.foldl (fun a d => a * 10 + (d - 48)) 0

theorem digitsVal_foldl (n : Nat) :
    ∀ a, (natRepr n).foldl (fun a d => a * 10 + (d - 48)) a
      = a * 10 ^ (natRepr n).length + n := by
  induction n using Nat.strong_induction_on with
  | _ n ih =>
    intro a
    by_cases h : n < 10
    · rw [natRepr_small h]
      simp only [List.foldl_cons, List.foldl_nil, List.length_cons, List.length_nil,
        Nat.zero_add, pow_one]
      omega
    · rw [natRepr_step h, List.foldl_append]
      have hd : n / 10 < n := Nat.div_lt_self (by omega) (by omega)
      rw [ih (n / 10) hd a]
      simp only [List.foldl_cons, List.foldl_nil, List.length_append, List.length_cons,
        List.length_nil, Nat.zero_add, pow_succ]
      have hmod : n % 10 + 48 - 48 = n % 10 := by omega
      rw [hmod]
      have h1 : (a * 10 ^ (natRepr (n / 10)).length + n / 10) * 10 + n % 10
          = a * (10 ^ (natRepr (n / 10)).length * 10) + (n / 10 * 10 + n % 10) := by ring
      have h2 : n / 10 * 10 + n % 10 = n := by omega
      rw [h1, h2]

theorem digitsVal_natRepr (n : Nat) : digitsVal (natRepr n) = n := by
  rw [digitsVal, digitsVal_foldl]
  simp

/-! Low-level parsing combinators over character-code lists.  These model the
decoding half of the portable TransactionRaw encoding (spec sections 3 and 6),
which lives in `swap/providers/*/utils.py`, outside `src/`. -/

/-- Consume an expected literal prefix. -/
def dropLit : List Nat → List Nat → Option (List Nat)
  | [], s => some s
  | _ :: _, [] => none
  | l :: ls, c :: cs => if l = c then dropLit ls cs else none

theorem dropLit_append (lit r : List Nat) : dropLit lit (lit ++ r) = some r := by
  induction lit with
  | nil => rfl
  | cons l ls ih => simpa [dropLit] using ih

theorem dropLit_ne_head {l c : Nat} {ls cs : List Nat} (h : l ≠ c) :
    dropLit (l :: ls) (c :: cs) = none := by
  simp [dropLit, h]

/-- Split at the first quote character (code 34); used after an opening
quote to read a JSON string body (the embedded strings never contain
escapes, see `wfStrB`). -/
def splitAtQuote : List Nat → Option (List Nat × List Nat)
  | [] => none
  | c :: cs =>
    if c = 34 then some ([], cs)
    else
      match splitAtQuote cs with
      | some (a, b) => some (c :: a, b)
      | none => none

theorem splitAtQuote_append {s : List Nat} (h : 34 ∉ s) (r : List Nat) :
    splitAtQuote (s ++ 34 :: r) = some (s, r) := by
  induction s with
  | nil => simp [splitAtQuote]
  | cons c cs ih =>
    have hc : c ≠ 34 := by
      intro hc
      exact h (by simp [hc])
    have hcs : 34 ∉ cs := fun hm => h (List.mem_cons_of_mem _ hm)
    simp [splitAtQuote, hc, ih hcs]

/-- Greedily consume a run of decimal digit codes. -/
def takeDigits : List Nat → List Nat × List Nat
  | [] => ([], [])
  | c :: cs =>
    if 48 ≤ c ∧ c ≤ 57 then
      let p := takeDigits cs
      (c :: p.1, p.2)
    else ([], c :: cs)

/-- `r` does not start with a decimal digit code. -/
def NoDigitHead (r : List Nat) : Prop :=
  ∀ c, r.head? = some c → ¬ (48 ≤ c ∧ c ≤ 57)

theorem takeDigits_append {ds : List Nat} (hds : ∀ d ∈ ds, 48 ≤ d ∧ d ≤ 57)
    {r : List Nat} (hr : NoDigitHead r) : takeDigits (ds ++ r) = (ds, r) := by
  induction ds with
  | nil =>
    cases r with
    | nil => rfl
    | cons c cs =>
      have := hr c rfl
      simp only [List.nil_append, takeDigits, if_neg this]
  | cons d ds ih =>
    have hd := hds d (List.mem_cons_self _ _)
    have hrest : ∀ x ∈ ds, 48 ≤ x ∧ x ≤ 57 := fun x hx => hds x (List.mem_cons_of_mem _ hx)
    simp only [List.cons_append, takeDigits, if_pos hd, List.append_eq, ih hrest]

/-- Parse a decimal natural number (nonempty digit run). -/
def parseNatC (s : List Nat) : Option (Nat × List Nat) :=
  let p := takeDigits s
  if p.1 = [] then none else some (digitsVal p.1, p.2)

theorem parseNatC_natRepr (n : Nat) {r : List Nat} (hr : NoDigitHead r) :
    parseNatC (natRepr n ++ r) = some (n, r) := by
  rw [parseNatC, takeDigits_append (natRepr_digits n) hr]
  simp [natRepr_ne_nil n, digitsVal_natRepr]

/-! Standard base64 over byte lists, modelling Python's `b64encode`/`b64decode`
(stdlib collaborators used by `Transaction.transaction_raw` and by the raw
decoders in `swap/providers/*/utils.py`). -/

/-- Base64 alphabet: code of the character for a sextet value. -/
def b64chr (s : Nat) : Nat :=
  if s < 26 then 65 + s
  else if s < 52 then 71 + s
  else if s < 62 then s - 4
  else if s = 62 then 43
  else 47

/-- Inverse of the base64 alphabet. -/
def b64val (c : Nat) : Option Nat :=
  if 65 ≤ c ∧ c ≤ 90 then some (c - 65)
  else if 97 ≤ c ∧ c ≤ 122 then some (c - 71)
  else if 48 ≤ c ∧ c ≤ 57 then some (c + 4)
  else if c = 43 then some 62
  else if c = 47 then some 63
  else none

theorem b64val_chr : ∀ s < 64, b64val (b64chr s) = some s := by decide

theorem b64chr_ne_pad : ∀ s < 64, b64chr s ≠ 61 := by decide

/-- `b64encode` on a byte list, producing character codes with `=` (61)
padding. -/
def b64e : List Nat → List Nat
  | a :: b :: c :: rest =>
    b64chr (a / 4) :: b64chr (a % 4 * 16 + b / 16)
      :: b64chr (b % 16 * 4 + c / 64) :: b64chr (c % 64) :: b64e rest
  | [a, b] =>
    [b64chr (a / 4), b64chr (a % 4 * 16 + b / 16), b64chr (b % 16 * 4), 61]
  | [a] =>
    [b64chr (a / 4), b64chr (a % 4 * 16), 61, 61]
  | [] => []

/-- `b64decode` on character codes (with padding), recovering the byte list;
`none` models the `binascii` decoding error. -/
def b64d : List Nat → Option (List Nat)
  | [] => some []
  | c1 :: c2 :: c3 :: c4 :: rest =>
    (b64val c1).bind fun s1 =>
    (b64val c2).bind fun s2 =>
    if c3 = 61 then
      if c4 = 61 ∧ rest = [] then some [s1 * 4 + s2 / 16] else none
    else
      (b64val c3).bind fun s3 =>
      if c4 = 61 then
        if rest = [] then some [s1 * 4 + s2 / 16, s2 % 16 * 16 + s3 / 4] else none
      else
        (b64val c4).bind fun s4 =>
        (b64d rest).map fun bs =>
          (s1 * 4 + s2 / 16) :: (s2 % 16 * 16 + s3 / 4) :: (s3 % 4 * 64 + s4) :: bs
  | _ => none

theorem b64d_b64e : ∀ bs : List Nat, ByteBound bs → b64d (b64e bs) = some bs
  | [], _ => rfl
  | [a], h => by
    have ha : a < 256 := h a (by simp)
    have h1 : a / 4 < 64 := by omega
    have h2 : a % 4 * 16 < 64 := by omega
    have e1 : a / 4 * 4 + a % 4 * 16 / 16 = a := by omega
    simp only [b64e, b64d]
    rw [b64val_chr _ h1, b64val_chr _ h2]
    simp
    omega
  | [a, b], h => by
    have ha : a < 256 := h a (by simp)
    have hb : b < 256 := h b (by simp)
    have h1 : a / 4 < 64 := by omega
    have h2 : a % 4 * 16 + b / 16 < 64 := by omega
    have h3 : b % 16 * 4 < 64 := by omega
    have hne : b64chr (b % 16 * 4) ≠ 61 := b64chr_ne_pad _ h3
    have e1 : a / 4 * 4 + (a % 4 * 16 + b / 16) / 16 = a := by omega
    have e2 : (a % 4 * 16 + b / 16) % 16 * 16 + b % 16 * 4 / 4 = b := by omega
    simp only [b64e, b64d]
    rw [b64val_chr _ h1, b64val_chr _ h2]
    simp only [Option.some_bind, if_neg hne]
    rw [b64val_chr _ h3]
    simp
    omega
  | a :: b :: c :: rest, h => by
    have ha : a < 256 := h a (by simp)
    have hb : b < 256 := h b (by simp)
    have hc : c < 256 := h c (by simp)
    have hrest : ByteBound rest := by
      intro x hx
      exact h x (by simp [hx])
    have ih := b64d_b64e rest hrest
    have h1 : a / 4 < 64 := by omega
    have h2 : a % 4 * 16 + b / 16 < 64 := by omega
    have h3 : b % 16 * 4 + c / 64 < 64 := by omega
    have h4 : c % 64 < 64 := by omega
    have hne3 : b64chr (b % 16 * 4 + c / 64) ≠ 61 := b64chr_ne_pad _ h3
    have hne4 : b64chr (c % 64) ≠ 61 := b64chr_ne_pad _ h4
    have e1 : a / 4 * 4 + (a % 4 * 16 + b / 16) / 16 = a := by omega
    have e2 : (a % 4 * 16 + b / 16) % 16 * 16 + (b % 16 * 4 + c / 64) / 4 = b := by omega
    have e3 : (b % 16 * 4 + c / 64) % 4 * 64 + c % 64 = c := by omega
    show b64d (b64chr (a / 4) :: b64chr (a % 4 * 16 + b / 16)
      :: b64chr (b % 16 * 4 + c / 64) :: b64chr (c % 64) :: b64e rest) = _
    simp only [b64d]
    rw [b64val_chr _ h1, b64val_chr _ h2]
    simp only [Option.some_bind, if_neg hne3]
    rw [b64val_chr _ h3]
    simp only [Option.some_bind, if_neg hne4]
    rw [b64val_chr _ h4]
    simp [ih]
    omega

/-- `swap.utils.clean_transaction_raw`.  Modelled from the spec: the function
lives in `swap/utils/__init__.py` (not under `src/`); per the TransactionRaw
wire format (spec section 6, "length-prefix-free, URL-safe encoded blob") and
the repository docstrings, it strips the base64 `=` padding. -/
def clean_transaction_raw (raw : List Nat) : List Nat :=
  raw.filter fun c => c != 61

/-- Re-padding performed by the raw decoders before `b64decode`
(`transaction_raw + "=" * (-len(transaction_raw) % 4)`). -/
def repad (raw : List Nat) : List Nat :=
  raw ++ List.replicate ((4 - raw.length % 4) % 4) 61

theorem b64e_shape : ∀ bs : List Nat, ByteBound bs →
    ∃ main k, b64e bs = main ++ List.replicate k 61 ∧ (∀ c ∈ main, c ≠ 61)
      ∧ k ≤ 2 ∧ (main.length + k) % 4 = 0
  | [], _ => ⟨[], 0, rfl, by simp, by omega, by simp⟩
  | [a], h => by
    have ha : a < 256 := h a (by simp)
    have h1 : a / 4 < 64 := by omega
    have h2 : a % 4 * 16 < 64 := by omega
    refine ⟨[b64chr (a / 4), b64chr (a % 4 * 16)], 2, rfl, ?_, by omega, by simp⟩
    intro x hx
    rcases List.mem_cons.mp hx with h' | h'
    · exact h' ▸ b64chr_ne_pad _ h1
    · have : x = b64chr (a % 4 * 16) := by simpa using h'
      exact this ▸ b64chr_ne_pad _ h2
  | [a, b], h => by
    have ha : a < 256 := h a (by simp)
    have hb : b < 256 := h b (by simp)
    have h1 : a / 4 < 64 := by omega
    have h2 : a % 4 * 16 + b / 16 < 64 := by omega
    have h3 : b % 16 * 4 < 64 := by omega
    refine ⟨[b64chr (a / 4), b64chr (a % 4 * 16 + b / 16), b64chr (b % 16 * 4)], 1,
      rfl, ?_, by omega, by simp⟩
    intro x hx
    rcases List.mem_cons.mp hx with h' | h'
    · exact h' ▸ b64chr_ne_pad _ h1
    rcases List.mem_cons.mp h' with h'' | h''
    · exact h'' ▸ b64chr_ne_pad _ h2
    · have : x = b64chr (b % 16 * 4) := by simpa using h''
      exact this ▸ b64chr_ne_pad _ h3
  | a :: b :: c :: rest, h => by
    have ha : a < 256 := h a (by simp)
    have hb : b < 256 := h b (by simp)
    have hc : c < 256 := h c (by simp)
    have hrest : ByteBound rest := by
      intro x hx
      exact h x (by simp [hx])
    obtain ⟨main, k, heq, hne, hk, hmod⟩ := b64e_shape rest hrest
    have h1 : a / 4 < 64 := by omega
    have h2 : a % 4 * 16 + b / 16 < 64 := by omega
    have h3 : b % 16 * 4 + c / 64 < 64 := by omega
    have h4 : c % 64 < 64 := by omega
    refine ⟨b64chr (a / 4) :: b64chr (a % 4 * 16 + b / 16)
      :: b64chr (b % 16 * 4 + c / 64) :: b64chr (c % 64) :: main, k, ?_, ?_, hk, ?_⟩
    · simp [b64e, heq]
    · intro x hx
      rcases List.mem_cons.mp hx with h' | hx
      · exact h' ▸ b64chr_ne_pad _ h1
      rcases List.mem_cons.mp hx with h' | hx
      · exact h' ▸ b64chr_ne_pad _ h2
      rcases List.mem_cons.mp hx with h' | hx
      · exact h' ▸ b64chr_ne_pad _ h3
      rcases List.mem_cons.mp hx with h' | hx
      · exact h' ▸ b64chr_ne_pad _ h4
      · exact hne x hx
    · simp only [List.length_cons]
      omega

theorem filter_replicate_pad (k : Nat) :
    (List.replicate k 61).filter (fun c => c != 61) = [] := by
  induction k with
  | zero => rfl
  | succ k ih => simp [List.replicate_succ, List.filter_cons, ih]

/-- Stripping the padding then re-padding before decode restores the exact
base64 output, so decode inverts the cleaned encoding. -/
theorem repad_clean_b64e {bs : List Nat} (h : ByteBound bs) :
    repad (clean_transaction_raw (b64e bs)) = b64e bs := by
  obtain ⟨main, k, heq, hne, hk, hmod⟩ := b64e_shape bs h
  have hclean : clean_transaction_raw (b64e bs) = main := by
    rw [clean_transaction_raw, heq, List.filter_append, filter_replicate_pad,
      List.append_nil, List.filter_eq_self.mpr]
    intro a ha
    simpa using hne a ha
  rw [hclean, repad, heq]
  have : (4 - main.length % 4) % 4 = k := by omega
  rw [this]

theorem b64d_repad_clean {bs : List Nat} (h : ByteBound bs) :
    b64d (repad (clean_transaction_raw (b64e bs))) = some bs := by
  rw [repad_clean_b64e h]
  exact b64d_b64e bs h

/-! The JSON fragment produced by `json.dumps` on the dictionaries the
builders store: objects whose values are ints or escape-free strings,
nested one level inside the top raw object.  `json.dumps` is called with
its default separators, so items are joined by a comma and one space and
keys are followed by a colon and one space. -/

/-- A leaf JSON value of the chain-native transaction/signature dicts. -/
inductive JLeaf where
  | num (n : Nat)
  | str (s : List Nat)
deriving DecidableEq

/-- Well-formedness of a leaf (string leaves are escape-free ASCII). -/
def wfLeafB : JLeaf → Bool
  | .num _ => true
  | .str s => wfStrB s

/-- Well-formedness of an object's members. -/
def wfMembersB (fs : List (List Nat × JLeaf)) : Bool :=
  fs.all fun p => wfStrB p.1 && wfLeafB p.2

/-- A JSON string literal: quote, body, quote (no escapes needed for the
embedded strings, see `wfStrB`). -/
def jstr (s : List Nat) : List Nat :=
  34 :: s ++ [34]

/-- `json.dumps` of a leaf value. -/
def dumpsLeaf : JLeaf → List Nat
  | .num n => natRepr n
  | .str s => jstr s

/-- `json.dumps` body of an object's members, joined by a comma and a
space, each key followed by a colon and a space. -/
def dumpsMembers : List (List Nat × JLeaf) → List Nat
  | [] => []
  | [(k, v)] => jstr k ++ 58 :: 32 :: dumpsLeaf v
  | (k, v) :: rest => jstr k ++ 58 :: 32 :: dumpsLeaf v ++ 44 :: 32 :: dumpsMembers rest

/-- `json.dumps` of a one-level object. -/
def dumpsObj (fs : List (List Nat × JLeaf)) : List Nat :=
  123 :: dumpsMembers fs ++ [125]

/-- Parse a JSON string literal (opening quote, escape-free body, closing
quote). -/
def parseStrC : List Nat → Option (List Nat × List Nat)
  | [] => none
  | c :: cs => if c = 34 then splitAtQuote cs else none

theorem parseStrC_jstr {s : List Nat} (h : 34 ∉ s) (r : List Nat) :
    parseStrC (jstr s ++ r) = some (s, r) := by
  have hshape : jstr s ++ r = 34 :: (s ++ 34 :: r) := by simp [jstr]
  rw [hshape, parseStrC, if_pos rfl, splitAtQuote_append h]

/-- Parse a leaf value (string or decimal number). -/
def parseLeafC : List Nat → Option (JLeaf × List Nat)
  | [] => none
  | c :: cs =>
    if c = 34 then (splitAtQuote cs).map fun p => (.str p.1, p.2)
    else if 48 ≤ c ∧ c ≤ 57 then (parseNatC (c :: cs)).map fun p => (.num p.1, p.2)
    else none

theorem parseLeafC_dumps {v : JLeaf} (hv : wfLeafB v = true) {r : List Nat}
    (hr : NoDigitHead r) : parseLeafC (dumpsLeaf v ++ r) = some (v, r) := by
  cases v with
  | num n =>
    obtain ⟨d, t, ht, hd1, hd2⟩ := natRepr_head n
    have hfull : dumpsLeaf (.num n) ++ r = d :: (t ++ r) := by
      rw [dumpsLeaf, ht]
      rfl
    have hne : d ≠ 34 := by omega
    rw [hfull, parseLeafC, if_neg hne, if_pos ⟨hd1, hd2⟩]
    have hback : d :: (t ++ r) = natRepr n ++ r := by rw [ht]; rfl
    rw [hback, parseNatC_natRepr n hr]
    rfl
  | str s =>
    have hshape : dumpsLeaf (.str s) ++ r = 34 :: (s ++ 34 :: r) := by
      simp [dumpsLeaf, jstr]
    rw [hshape, parseLeafC, if_pos rfl, splitAtQuote_append (wfStrB_no_quote hv)]
    rfl

/-- Parse the members of a one-level object up to and including the
closing brace, with fuel bounding the recursion. -/
def parseMembersC : Nat → List Nat → Option (List (List Nat × JLeaf) × List Nat)
  | 0, _ => none
  | fuel + 1, s =>
    (parseStrC s).bind fun kp =>
    (dropLit [58, 32] kp.2).bind fun s2 =>
    (parseLeafC s2).bind fun vp =>
    match vp.2 with
    | 125 :: r => some ([(kp.1, vp.1)], r)
    | 44 :: 32 :: rest => (parseMembersC fuel rest).map fun q => ((kp.1, vp.1) :: q.1, q.2)
    | _ => none

/-- Parse a one-level object (opening brace, members, closing brace). -/
def parseObjC : List Nat → Option (List (List Nat × JLeaf) × List Nat)
  | [] => none
  | c :: cs =>
    if c = 123 then
      if cs.head? = some 125 then some ([], cs.tail)
      else parseMembersC cs.length cs
    else none

theorem dumpsMembers_cons_cons (k : List Nat) (v : JLeaf) (p : List Nat × JLeaf)
    (rest : List (List Nat × JLeaf)) :
    dumpsMembers ((k, v) :: p :: rest)
      = jstr k ++ (58 :: 32 :: (dumpsLeaf v ++ (44 :: 32 :: dumpsMembers (p :: rest)))) := by
  simp [dumpsMembers]

theorem dumpsMembers_length_ge : ∀ fs : List (List Nat × JLeaf),
    fs.length ≤ (dumpsMembers fs).length
  | [] => by simp [dumpsMembers]
  | [(k, v)] => by simp [dumpsMembers, jstr]
  | (k, v) :: p :: rest => by
    have ih := dumpsMembers_length_ge (p :: rest)
    rw [dumpsMembers_cons_cons]
    simp only [List.length_cons] at ih
    simp only [jstr, List.length_append, List.length_cons]
    omega

theorem dumpsMembers_head : ∀ (k : List Nat) (v : JLeaf) (rest : List (List Nat × JLeaf)),
    ∃ t, dumpsMembers ((k, v) :: rest) = 34 :: t := by
  intro k v rest
  cases rest with
  | nil => exact ⟨k ++ [34] ++ 58 :: 32 :: dumpsLeaf v, by simp [dumpsMembers, jstr]⟩
  | cons p ps =>
    exact ⟨k ++ [34] ++ 58 :: 32 :: dumpsLeaf v ++ 44 :: 32 :: dumpsMembers (p :: ps),
      by simp [dumpsMembers, jstr]⟩

theorem parseMembersC_dumps : ∀ (fs : List (List Nat × JLeaf)), fs ≠ [] →
    wfMembersB fs = true → ∀ fuel, fs.length ≤ fuel → ∀ r : List Nat,
    parseMembersC fuel (dumpsMembers fs ++ 125 :: r) = some (fs, r)
  | [], hne, _, _, _, _ => absurd rfl hne
  | [(k, v)], _, hwf, fuel, hfuel, r => by
    have hkv := List.all_eq_true.mp hwf (k, v) (by simp)
    simp only [Bool.and_eq_true] at hkv
    have hk : wfStrB k = true := hkv.1
    have hv : wfLeafB v = true := hkv.2
    cases fuel with
    | zero => simp at hfuel
    | succ fuel =>
      have hsplit : dumpsMembers [(k, v)] ++ 125 :: r
          = jstr k ++ ([58, 32] ++ (dumpsLeaf v ++ 125 :: r)) := by
        simp [dumpsMembers]
      rw [hsplit, parseMembersC, parseStrC_jstr (wfStrB_no_quote hk), Option.some_bind,
        dropLit_append, Option.some_bind,
        parseLeafC_dumps hv (by intro c hc; simp at hc; omega), Option.some_bind]
  | (k, v) :: p :: rest, _, hwf, fuel, hfuel, r => by
    have hkv := List.all_eq_true.mp hwf (k, v) (by simp)
    simp only [Bool.and_eq_true] at hkv
    have hk : wfStrB k = true := hkv.1
    have hv : wfLeafB v = true := hkv.2
    have hwrest : wfMembersB (p :: rest) = true := by
      rw [wfMembersB, List.all_eq_true]
      intro x hx
      exact List.all_eq_true.mp hwf x (List.mem_cons_of_mem _ hx)
    cases fuel with
    | zero => simp at hfuel
    | succ fuel =>
      have hfuel2 : (p :: rest).length ≤ fuel := by
        simp only [List.length_cons] at hfuel ⊢
        omega
      have ih := parseMembersC_dumps (p :: rest) (by simp) hwrest fuel hfuel2 r
      have hsplit : dumpsMembers ((k, v) :: p :: rest) ++ 125 :: r
          = jstr k ++ ([58, 32] ++ (dumpsLeaf v
              ++ 44 :: 32 :: (dumpsMembers (p :: rest) ++ 125 :: r))) := by
        simp [dumpsMembers]
      rw [hsplit, parseMembersC, parseStrC_jstr (wfStrB_no_quote hk), Option.some_bind,
        dropLit_append, Option.some_bind,
        parseLeafC_dumps hv (by intro c hc; simp at hc; omega), Option.some_bind]
      show Option.map (fun q => ((k, v) :: q.1, q.2))
        (parseMembersC fuel (dumpsMembers (p :: rest) ++ 125 :: r)) = _
      rw [ih]
      rfl

theorem parseObjC_dumps (fs : List (List Nat × JLeaf)) (hwf : wfMembersB fs = true)
    (r : List Nat) : parseObjC (dumpsObj fs ++ r) = some (fs, r) := by
  cases fs with
  | nil => simp [dumpsObj, dumpsMembers, parseObjC]
  | cons q rest =>
    rcases q with ⟨k, v⟩
    obtain ⟨t, ht⟩ := dumpsMembers_head k v rest
    have hshape : dumpsObj ((k, v) :: rest) ++ r
        = 123 :: (34 :: (t ++ 125 :: r)) := by
      simp [dumpsObj, ht]
    rw [hshape, parseObjC, if_pos rfl]
    have hne : ¬ ((34 :: (t ++ 125 :: r)).head? = some 125) := by simp
    rw [if_neg hne]
    have hback : 34 :: (t ++ 125 :: r) = dumpsMembers ((k, v) :: rest) ++ 125 :: r := by
      rw [ht]
      rfl
    rw [hback]
    apply parseMembersC_dumps ((k, v) :: rest) (by simp) hwf
    have hlen := dumpsMembers_length_ge ((k, v) :: rest)
    simp only [List.length_cons] at hlen
    simp only [List.length_append, List.length_cons]
    omega

/-! The top-level TransactionRaw JSON object
`{fee, transaction, signature, network, type}` (spec sections 3 and 6),
exactly as `json.dumps` lays it out in `Transaction.transaction_raw`. -/

/-- `json.dumps` of an optional int (`None` becomes `null`). -/
def dumpsOptNat : Option Nat → List Nat
  | none => codes "null"
  | some n => natRepr n

/-- `json.dumps` of an optional string (`None` becomes `null`). -/
def dumpsOptStr : Option (List Nat) → List Nat
  | none => codes "null"
  | some s => jstr s

/-- `json.dumps` of an optional one-level object (`None` becomes `null`). -/
def dumpsOptObj : Option (List (List Nat × JLeaf)) → List Nat
  | none => codes "null"
  | some fs => dumpsObj fs

/-- The serialized top-level raw object.  `txBytes` is the already
serialized `transaction` value; the remaining fields are laid out exactly
as `json.dumps(dict(fee=..., transaction=..., signature=..., network=...,
type=...))` does with default separators. -/
def dumpsTopRaw (fee : Option Nat) (txBytes : List Nat)
    (sig : Option (List (List Nat × JLeaf))) (network : List Nat)
    (ty : Option (List Nat)) : List Nat :=
  123 :: (codes "\"fee\": " ++ (dumpsOptNat fee
    ++ (codes ", \"transaction\": " ++ (txBytes
    ++ (codes ", \"signature\": " ++ (dumpsOptObj sig
    ++ (codes ", \"network\": " ++ (jstr network
    ++ (codes ", \"type\": " ++ (dumpsOptStr ty ++ [125]))))))))))

/-- Decoded form of a TransactionRaw payload: the five canonical fields.
`transaction` and `signature` objects are represented as association lists
of leaves, `null` optionals as `none`. -/
structure DecodedRaw where
  fee : Option Nat
  transaction : List (List Nat × JLeaf)
  signature : Option (List (List Nat × JLeaf))
  network : List Nat
  type : Option (List Nat)
deriving DecidableEq

/-- Parse an optional decimal int (`null` or digits). -/
def parseOptNatC (s : List Nat) : Option (Option Nat × List Nat) :=
  match dropLit (codes "null") s with
  | some r => some (none, r)
  | none => (parseNatC s).map fun p => (some p.1, p.2)

/-- Parse an optional string (`null` or a quoted string). -/
def parseOptStrC (s : List Nat) : Option (Option (List Nat) × List Nat) :=
  match dropLit (codes "null") s with
  | some r => some (none, r)
  | none => (parseStrC s).map fun p => (some p.1, p.2)

/-- Parse an optional one-level object (`null` or an object). -/
def parseOptObjC (s : List Nat) : Option (Option (List (List Nat × JLeaf)) × List Nat) :=
  match dropLit (codes "null") s with
  | some r => some (none, r)
  | none => (parseObjC s).map fun p => (some p.1, p.2)

theorem parseOptNatC_dumps (v : Option Nat) {r : List Nat} (hr : NoDigitHead r) :
    parseOptNatC (dumpsOptNat v ++ r) = some (v, r) := by
  cases v with
  | none => rw [dumpsOptNat, parseOptNatC, dropLit_append]
  | some n =>
    obtain ⟨d, t, ht, hd1, hd2⟩ := natRepr_head n
    have hlit : dropLit (codes "null") (dumpsOptNat (some n) ++ r) = none := by
      rw [dumpsOptNat, ht]
      refine dropLit_ne_head ?_
      have h110 : Char.toNat ('n') = 110 := by decide
      omega
    rw [parseOptNatC, hlit, dumpsOptNat, parseNatC_natRepr n hr]
    rfl

theorem parseOptStrC_dumps (v : Option (List Nat))
    (hv : ∀ s, v = some s → 34 ∉ s) (r : List Nat) :
    parseOptStrC (dumpsOptStr v ++ r) = some (v, r) := by
  cases v with
  | none => rw [dumpsOptStr, parseOptStrC, dropLit_append]
  | some s =>
    have hlit : dropLit (codes "null") (dumpsOptStr (some s) ++ r) = none := by
      rw [dumpsOptStr]
      have : jstr s ++ r = 34 :: (s ++ 34 :: r) := by simp [jstr]
      rw [this]
      exact dropLit_ne_head (by decide)
    rw [parseOptStrC, hlit, dumpsOptStr, parseStrC_jstr (hv s rfl)]
    rfl

theorem parseOptObjC_dumps (v : Option (List (List Nat × JLeaf)))
    (hv : ∀ fs, v = some fs → wfMembersB fs = true) (r : List Nat) :
    parseOptObjC (dumpsOptObj v ++ r) = some (v, r) := by
  cases v with
  | none => rw [dumpsOptObj, parseOptObjC, dropLit_append]
  | some fs =>
    have hlit : dropLit (codes "null") (dumpsOptObj (some fs) ++ r) = none := by
      rw [dumpsOptObj]
      have : dumpsObj fs ++ r = 123 :: (dumpsMembers fs ++ [125] ++ r) := by
        simp [dumpsObj]
      rw [this]
      exact dropLit_ne_head (by decide)
    rw [parseOptObjC, hlit, dumpsOptObj, parseObjC_dumps fs (hv fs rfl)]
    rfl

/-- Parse a complete serialized TransactionRaw JSON object, consuming the
whole input. -/
def parseTopRaw (s : List Nat) : Option DecodedRaw :=
  (dropLit (123 :: codes "\"fee\": ") s).bind fun s1 =>
  (parseOptNatC s1).bind fun fp =>
  (dropLit (codes ", \"transaction\": ") fp.2).bind fun s2 =>
  (parseObjC s2).bind fun tp =>
  (dropLit (codes ", \"signature\": ") tp.2).bind fun s3 =>
  (parseOptObjC s3).bind fun gp =>
  (dropLit (codes ", \"network\": ") gp.2).bind fun s4 =>
  (parseStrC s4).bind fun np =>
  (dropLit (codes ", \"type\": ") np.2).bind fun s5 =>
  (parseOptStrC s5).bind fun yp =>
  if yp.2 = [125] then some ⟨fp.1, tp.1, gp.1, np.1, yp.1⟩ else none

theorem parseTopRaw_dumps (fee : Option Nat) (txo : List (List Nat × JLeaf))
    (sig : Option (List (List Nat × JLeaf))) (network : List Nat)
    (ty : Option (List Nat)) (htx : wfMembersB txo = true)
    (hsig : ∀ fs, sig = some fs → wfMembersB fs = true)
    (hnw : 34 ∉ network) (hty : ∀ s, ty = some s → 34 ∉ s) :
    parseTopRaw (dumpsTopRaw fee (dumpsObj txo) sig network ty)
      = some ⟨fee, txo, sig, network, ty⟩ := by
  have hshape : dumpsTopRaw fee (dumpsObj txo) sig network ty
      = (123 :: codes "\"fee\": ")
        ++ (dumpsOptNat fee
          ++ (codes ", \"transaction\": "
            ++ (dumpsObj txo
              ++ (codes ", \"signature\": "
                ++ (dumpsOptObj sig
                  ++ (codes ", \"network\": "
                    ++ (jstr network
                      ++ (codes ", \"type\": "
                        ++ (dumpsOptStr ty ++ [125]))))))))) := by
    rw [dumpsTopRaw]
    simp
  rw [hshape, parseTopRaw, dropLit_append, Option.some_bind,
    parseOptNatC_dumps fee (by intro c hc; simp [codes] at hc; omega), Option.some_bind,
    dropLit_append, Option.some_bind,
    parseObjC_dumps txo htx, Option.some_bind,
    dropLit_append, Option.some_bind,
    parseOptObjC_dumps sig hsig, Option.some_bind,
    dropLit_append, Option.some_bind,
    parseStrC_jstr hnw, Option.some_bind,
    dropLit_append, Option.some_bind,
    parseOptStrC_dumps ty hty, Option.some_bind, if_pos rfl]

/-! Byte bounds for the serializer output (so the base64 layer applies). -/

theorem jstr_bound {s : List Nat} (h : ByteBound s) : ByteBound (jstr s) := by
  rw [jstr]
  refine byteBound_cons (by omega) (byteBound_append h ?_)
  intro c hc
  simp at hc
  omega

theorem dumpsLeaf_bound {v : JLeaf} (h : wfLeafB v = true) : ByteBound (dumpsLeaf v) := by
  cases v with
  | num n => exact natRepr_bound n
  | str s => exact jstr_bound (wfStrB_bound h)

theorem dumpsMembers_bound : ∀ {fs : List (List Nat × JLeaf)}, wfMembersB fs = true →
    ByteBound (dumpsMembers fs)
  | [], _ => by
    intro c hc
    simp [dumpsMembers] at hc
  | [(k, v)], h => by
    have hkv := List.all_eq_true.mp h (k, v) (by simp)
    simp only [Bool.and_eq_true] at hkv
    rw [dumpsMembers]
    exact byteBound_append (jstr_bound (wfStrB_bound hkv.1))
      (byteBound_cons (by omega) (byteBound_cons (by omega) (dumpsLeaf_bound hkv.2)))
  | (k, v) :: p :: rest, h => by
    have hkv := List.all_eq_true.mp h (k, v) (by simp)
    simp only [Bool.and_eq_true] at hkv
    have hrest : wfMembersB (p :: rest) = true := by
      rw [wfMembersB, List.all_eq_true]
      intro x hx
      exact List.all_eq_true.mp h x (List.mem_cons_of_mem _ hx)
    rw [dumpsMembers_cons_cons]
    refine byteBound_append (jstr_bound (wfStrB_bound hkv.1)) ?_
    refine byteBound_cons (by omega) (byteBound_cons (by omega) ?_)
    refine byteBound_append (dumpsLeaf_bound hkv.2) ?_
    exact byteBound_cons (by omega) (byteBound_cons (by omega) (dumpsMembers_bound hrest))

theorem dumpsObj_bound {fs : List (List Nat × JLeaf)} (h : wfMembersB fs = true) :
    ByteBound (dumpsObj fs) := by
  rw [dumpsObj]
  refine byteBound_cons (by omega) (byteBound_append (dumpsMembers_bound h) ?_)
  intro c hc
  simp at hc
  omega

theorem dumpsOptNat_bound (v : Option Nat) : ByteBound (dumpsOptNat v) := by
  cases v with
  | none => exact byteBound_of_all (by decide)
  | some n => exact natRepr_bound n

theorem dumpsOptStr_bound {v : Option (List Nat)}
    (h : ∀ s, v = some s → ByteBound s) : ByteBound (dumpsOptStr v) := by
  cases v with
  | none => exact byteBound_of_all (by decide)
  | some s => exact jstr_bound (h s rfl)

theorem dumpsOptObj_bound {v : Option (List (List Nat × JLeaf))}
    (h : ∀ fs, v = some fs → wfMembersB fs = true) : ByteBound (dumpsOptObj v) := by
  cases v with
  | none => exact byteBound_of_all (by decide)
  | some fs => exact dumpsObj_bound (h fs rfl)

theorem dumpsTopRaw_bound {fee : Option Nat} {txBytes : List Nat}
    {sig : Option (List (List Nat × JLeaf))} {network : List Nat}
    {ty : Option (List Nat)} (htx : ByteBound txBytes)
    (hsig : ∀ fs, sig = some fs → wfMembersB fs = true)
    (hnw : ByteBound network) (hty : ∀ s, ty = some s → ByteBound s) :
    ByteBound (dumpsTopRaw fee txBytes sig network ty) := by
  rw [dumpsTopRaw]
  refine byteBound_cons (by omega) ?_
  refine byteBound_append (byteBound_of_all (by decide)) ?_
  refine byteBound_append (dumpsOptNat_bound fee) ?_
  refine byteBound_append (byteBound_of_all (by decide)) ?_
  refine byteBound_append htx ?_
  refine byteBound_append (byteBound_of_all (by decide)) ?_
  refine byteBound_append (dumpsOptObj_bound hsig) ?_
  refine byteBound_append (byteBound_of_all (by decide)) ?_
  refine byteBound_append (jstr_bound hnw) ?_
  refine byteBound_append (byteBound_of_all (by decide)) ?_
  exact byteBound_append (dumpsOptStr_bound hty) (byteBound_of_all (by decide))

/-- Modelled from the spec: `decode_transaction_raw` in
`swap/providers/xinfin/utils.py` is not under `src/`.  Per spec sections 3
and 6 it restores the `=` padding, base64-decodes the blob, parses the
canonical JSON object and yields its five fields (`none` encodes the
decoding failure reported as "invalid transaction raw"). -/
def decodeRawR (raw : List Nat) : Option DecodedRaw :=
  (b64d (repad raw)).bind parseTopRaw

/-- Decoding inverts the cleaned base64 serialization of the canonical
TransactionRaw object. -/
theorem decodeRawR_encode (fee : Option Nat) (txo : List (List Nat × JLeaf))
    (sig : Option (List (List Nat × JLeaf))) (network : List Nat)
    (ty : Option (List Nat)) (htx : wfMembersB txo = true)
    (hsig : ∀ fs, sig = some fs → wfMembersB fs = true)
    (hnw : wfStrB network = true) (hty : ∀ s, ty = some s → wfStrB s = true) :
    decodeRawR (clean_transaction_raw
        (b64e (dumpsTopRaw fee (dumpsObj txo) sig network ty)))
      = some ⟨fee, txo, sig, network, ty⟩ := by
  have hbound : ByteBound (dumpsTopRaw fee (dumpsObj txo) sig network ty) :=
    dumpsTopRaw_bound (dumpsObj_bound htx) hsig (wfStrB_bound hnw)
      (fun s hs => wfStrB_bound (hty s hs))
  rw [decodeRawR, b64d_repad_clean hbound, Option.some_bind]
  exact parseTopRaw_dumps fee txo sig network ty htx hsig
    (wfStrB_no_quote hnw) (fun s hs => wfStrB_no_quote (hty s hs))

/-! The XinFin provider model, translated from
`src/swap/providers/xinfin/transaction.py` and `solver.py`.  The external
collaborators consumed there (`swap.providers.xinfin.utils`, `wallet`,
`htlc`, `rpc`, web3, `swap.exceptions`) are embedded as an explicit
environment `Env` plus a chain-state `Web3` whose RPC answers are a trace of
successive responses. -/

/-- The error taxonomy of spec section 7 (`swap.exceptions` plus Python's
builtin `TypeError`/`ValueError`); `externalError` is an exception raised
inside an external collaborator and propagated unchanged. -/
inductive SwapError where
  | valueError (message : List Nat)
  | typeError (message : List Nat)
  | addressError (message : List Nat) (detail : Option (List Nat))
  | unitError (message : List Nat) (detail : Option (List Nat))
  | networkError (message : List Nat) (detail : Option (List Nat))
  | externalError (message : List Nat)
deriving DecidableEq

/-- The signature dict a `sign` method stores: `hash` and `rawTransaction`
carry the `.hex()` string forms produced from the collaborator's
`SignedTransaction`, `r`, `s`, `v` the integer components. -/
structure SignedTxn where
  hash : List Nat
  rawTransaction : List Nat
  r : Nat
  s : Nat
  v : Nat
deriving DecidableEq

/-- The unsigned transaction dict returned by web3's `buildTransaction`
(fields evidenced by the repository docstrings: chainId, from, value,
nonce, gas, gasPrice, to, data). -/
structure TxDict where
  chainId : Nat
  fromAddress : List Nat
  value : Nat
  nonce : Nat
  gas : Nat
  gasPrice : Nat
  toAddress : List Nat
  data : List Nat
deriving DecidableEq

/-- The call dict passed to `estimateGas` (from, value, nonce, gasPrice). -/
structure EstParams where
  fromAddress : List Nat
  value : Nat
  nonce : Nat
  gasPrice : Nat
deriving DecidableEq

/-- The dict passed to `buildTransaction` (adds the gas limit). -/
structure BuildParams where
  fromAddress : List Nat
  value : Nat
  nonce : Nat
  gas : Nat
  gasPrice : Nat
deriving DecidableEq

/-- Chain state seen over RPC: successive answers of
`web3.eth.get_transaction_count` and `web3.eth.gasPrice` (each RPC call
consumes one), plus an observer log of the call dicts passed to
`estimateGas`. -/
structure Web3 where
  nonces : List Nat
  gasPrices : List Nat
  estCalls : List EstParams
deriving DecidableEq

/-- HTLC agreements dict (`htlc.agreements` as read by the fund builder). -/
structure HTLCAgreements where
  secret_hash : List Nat
  recipient_address : List Nat
  sender_address : List Nat
  endtime : Nat
deriving DecidableEq

/-- The `swap.providers.xinfin.htlc.HTLC` interface as consumed by
`transaction.py`: the agreements plus the deployed contract address. -/
structure HTLC where
  agreements : HTLCAgreements
  contract_address : List Nat
deriving DecidableEq

/-- A solver's role, standing for the three solver classes of
`src/swap/providers/xinfin/solver.py` (distinct classes, no subclassing, so
`isinstance` checks are role-equality checks). -/
inductive SolverRole where
  | fund
  | withdraw
  | refund
deriving DecidableEq

/-- One of `FundSolver`/`WithdrawSolver`/`RefundSolver`: the stored
`_xprivate_key` and `_path` plus the class tag. -/
structure Solver where
  role : SolverRole
  xprivate_key : List Nat
  path : List Nat
deriving DecidableEq

/-- `type(solver).__name__` of each solver class. -/
def solverClassName : SolverRole → List Nat
  | .fund => codes "FundSolver"
  | .withdraw => codes "WithdrawSolver"
  | .refund => codes "RefundSolver"

/-- External collaborators (spec section 6): address/network validators and
unit conversion (`utils.py`), wallet key derivation, web3 signing and
contract-call encoding, receipt/log decoding.  All are outside `src/` and
consumed as black boxes. -/
structure Env where
  is_network : List Nat → Bool
  is_address : List Nat → Bool
  to_checksum_address : List Nat → List Nat
  amount_unit_converter : Option Nat → List Nat → Nat
  derive_private_key : List Nat → List Nat → List Nat
  sign_transaction : Option TxDict → List Nat → Except (List Nat) SignedTxn
  chainId : Nat
  encode_fund : HTLCAgreements → List Nat
  encode_withdraw : List Nat → List Nat → List Nat
  encode_refund : List Nat → List Nat
  htlc_contract_address : Option (List Nat) → List Nat
  receipt_logs : List Nat → List (List Nat)
  locked_contract_id : List Nat → List Nat
  estimate_gas : List Nat → List Nat → EstParams → Nat

/-- `solver.solve()` followed by `wallet.private_key()`: derives the signing
key from the stored xprivate key and path (pure derivation, spec 4.3). -/
def Solver.solve (env : Env) (solver : Solver) : List Nat :=
  env.derive_private_key solver.xprivate_key solver.path

/-- One `web3.eth.get_transaction_count(address)` RPC call: consumes the
next answer of the chain trace. -/
def getTransactionCount (w3 : Web3) (address : List Nat) : Nat × Web3 :=
  (w3.nonces.headD 0, { w3 with nonces := w3.nonces.tail })

/-- One `web3.eth.gasPrice` RPC call. -/
def getGasPrice (w3 : Web3) : Nat × Web3 :=
  (w3.gasPrices.headD 0, { w3 with gasPrices := w3.gasPrices.tail })

/-- One `estimateGas` call on a contract function (`to`/`data`), recording
the call dict it observed. -/
def estimateGas (env : Env) (w3 : Web3) (toAddr data : List Nat) (p : EstParams) :
    Nat × Web3 :=
  (env.estimate_gas toAddr data p, { w3 with estCalls := w3.estCalls ++ [p] })

/-- web3's `buildTransaction`: keeps every explicitly passed field and fills
in chainId, to and data from the chain and the contract function. -/
def buildTransaction (env : Env) (toAddr data : List Nat) (p : BuildParams) : TxDict :=
  { chainId := env.chainId, fromAddress := p.fromAddress, value := p.value,
    nonce := p.nonce, gas := p.gas, gasPrice := p.gasPrice, toAddress := toAddr, data := data }

/-- The mutable state of a `Transaction` instance: `_network`,
`_transaction`, `_signature`, `_type`, `_fee`. -/
structure TransactionState where
  network : List Nat
  transaction : Option TxDict
  signature : Option SignedTxn
  type : Option (List Nat)
  fee : Option Nat
deriving DecidableEq

/-- `Transaction.__init__`: network check, then all four mutable fields
start as `None`. -/
def Transaction.init (env : Env) (network : List Nat) :
    Except SwapError TransactionState :=
  if env.is_network network then
    .ok { network := network, transaction := none, signature := none,
          type := none, fee := none }
  else
    .error (.networkError (codes "Invalid XinFin '" ++ network ++ codes "' network")
      (some (codes "choose only 'mainnet', 'ropsten', 'kovan', 'rinkeby' or 'testnet' networks.")))

/-- The "not built" guard message shared by every accessor. -/
def notBuiltMsg : List Nat :=
  codes "Transaction is none, build transaction first."

/-- Result of `Transaction.fee`: the raw Wei value, or the external unit
converter's output for non-Wei units. -/
inductive FeeValue where
  | wei (value : Option Nat)
  | converted (value : Nat)
deriving DecidableEq

/-- `Transaction.fee(unit)`. -/
def Transaction.fee (env : Env) (st : TransactionState) (unit : List Nat) :
    Except SwapError FeeValue :=
  match st.transaction with
  | none => .error (.valueError notBuiltMsg)
  | some _ =>
    if ¬ (unit = codes "XDC" ∨ unit = codes "Gwei" ∨ unit = codes "Wei") then
      .error (.unitError (codes "Invalid XinFin '" ++ unit ++ codes "' unit")
        (some (codes "choose only 'XDC', 'Gwei' or 'Wei' units.")))
    else if unit = codes "Wei" then .ok (.wei st.fee)
    else .ok (.converted (env.amount_unit_converter st.fee (codes "Wei2" ++ unit)))

/-- `Transaction.hash()`: the signature's hash, or `None` before signing. -/
def Transaction.hash (st : TransactionState) :
    Except SwapError (Option (List Nat)) :=
  match st.transaction with
  | none => .error (.valueError notBuiltMsg)
  | some _ => .ok (st.signature.map fun s => s.hash)

/-- `Transaction.json()`: the stored transaction dict. -/
def Transaction.json (st : TransactionState) : Except SwapError TxDict :=
  match st.transaction with
  | none => .error (.valueError notBuiltMsg)
  | some tx => .ok tx

/-- `Transaction.raw()`: the signature's rawTransaction, or `None` before
signing. -/
def Transaction.raw (st : TransactionState) :
    Except SwapError (Option (List Nat)) :=
  match st.transaction with
  | none => .error (.valueError notBuiltMsg)
  | some _ => .ok (st.signature.map fun s => s.rawTransaction)

/-- `Transaction.type()`. -/
def Transaction.type (st : TransactionState) :
    Except SwapError (Option (List Nat)) :=
  match st.transaction with
  | none => .error (.valueError notBuiltMsg)
  | some _ => .ok st.type

/-- `Transaction.signature()`. -/
def Transaction.signature (st : TransactionState) :
    Except SwapError (Option SignedTxn) :=
  match st.transaction with
  | none => .error (.valueError notBuiltMsg)
  | some _ => .ok st.signature

/-- The transaction dict in `json.dumps` order (evidenced by the
`transaction_raw` docstring payload). -/
def txAssoc (t : TxDict) : List (List Nat × JLeaf) :=
  [(codes "chainId", .num t.chainId), (codes "from", .str t.fromAddress),
   (codes "value", .num t.value), (codes "nonce", .num t.nonce),
   (codes "gas", .num t.gas), (codes "gasPrice", .num t.gasPrice),
   (codes "to", .str t.toAddress), (codes "data", .str t.data)]

/-- The signature dict in `dict(hash=..., rawTransaction=..., r=..., s=...,
v=...)` order. -/
def sigAssoc (s : SignedTxn) : List (List Nat × JLeaf) :=
  [(codes "hash", .str s.hash), (codes "rawTransaction", .str s.rawTransaction),
   (codes "r", .num s.r), (codes "s", .num s.s), (codes "v", .num s.v)]

/-- `Transaction.transaction_raw()`: the cleaned base64 of the canonical
JSON object `{fee, transaction, signature, network, type}`. -/
def Transaction.transaction_raw (st : TransactionState) :
    Except SwapError (List Nat) :=
  match st.transaction with
  | none => .error (.valueError notBuiltMsg)
  | some tx =>
    .ok (clean_transaction_raw (b64e (dumpsTopRaw st.fee
      (dumpsObj (txAssoc tx)) (st.signature.map sigAssoc) st.network st.type)))

/-- `FundTransaction.build_transaction(address, htlc, amount)`: address and
agreement checks, then fee estimation and assembly, each issuing its own
`get_transaction_count` and `gasPrice` RPC calls in source order. -/
def FundTransaction.build_transaction (env : Env) (st : TransactionState)
    (w3 : Web3) (address : List Nat) (htlc : HTLC) (amount : Nat) :
    Except SwapError (TransactionState × Web3) :=
  if ¬ env.is_address address then
    .error (.addressError
      (codes "Invalid XinFin sender '" ++ address ++ codes "' address.") none)
  else if env.to_checksum_address address ≠ htlc.agreements.sender_address then
    .error (.addressError
      (codes "Wrong XinFin sender '" ++ address ++ codes "' address")
      (some (codes "address must be equal with HTLC agreements sender address.")))
  else
    let cs := env.to_checksum_address address
    let toAddr := htlc.contract_address
    let data := env.encode_fund htlc.agreements
    let n1 := getTransactionCount w3 cs
    let g1 := getGasPrice n1.2
    let est := estimateGas env g1.2 toAddr data ⟨cs, amount, n1.1, g1.1⟩
    let n2 := getTransactionCount est.2 cs
    let g2 := getGasPrice n2.2
    let tx := buildTransaction env toAddr data ⟨cs, amount, n2.1, est.1, g2.1⟩
    .ok ({ st with
      fee := some est.1,
      transaction := some tx,
      type := some (codes "xinfin_fund_unsigned") }, g2.2)

/-- `WithdrawTransaction.build_transaction(transaction_hash, address,
secret_key, htlc_transaction_hash)`. -/
def WithdrawTransaction.build_transaction (env : Env) (st : TransactionState)
    (w3 : Web3) (transaction_hash address secret_key : List Nat)
    (htlc_transaction_hash : Option (List Nat)) :
    Except SwapError (TransactionState × Web3) :=
  if ¬ env.is_address address then
    .error (.addressError
      (codes "Invalid XinFin recipient '" ++ address ++ codes "' address.") none)
  else
    let toAddr := env.htlc_contract_address htlc_transaction_hash
    match (env.receipt_logs transaction_hash).head? with
    | none => .error (.externalError (codes "list index out of range"))
    | some log0 =>
      let locked := env.locked_contract_id log0
      let data := env.encode_withdraw locked secret_key
      let cs := env.to_checksum_address address
      let n1 := getTransactionCount w3 cs
      let g1 := getGasPrice n1.2
      let est := estimateGas env g1.2 toAddr data ⟨cs, 0, n1.1, g1.1⟩
      let n2 := getTransactionCount est.2 cs
      let g2 := getGasPrice n2.2
      let tx := buildTransaction env toAddr data ⟨cs, 0, n2.1, est.1, g2.1⟩
      .ok ({ st with
        fee := some est.1,
        transaction := some tx,
        type := some (codes "xinfin_withdraw_unsigned") }, g2.2)

/-- `RefundTransaction.build_transaction(transaction_hash, address,
htlc_transaction_hash)` (its invalid-address message says "recipient", as
in the source). -/
def RefundTransaction.build_transaction (env : Env) (st : TransactionState)
    (w3 : Web3) (transaction_hash address : List Nat)
    (htlc_transaction_hash : Option (List Nat)) :
    Except SwapError (TransactionState × Web3) :=
  if ¬ env.is_address address then
    .error (.addressError
      (codes "Invalid XinFin recipient '" ++ address ++ codes "' address.") none)
  else
    let toAddr := env.htlc_contract_address htlc_transaction_hash
    match (env.receipt_logs transaction_hash).head? with
    | none => .error (.externalError (codes "list index out of range"))
    | some log0 =>
      let locked := env.locked_contract_id log0
      let data := env.encode_refund locked
      let cs := env.to_checksum_address address
      let n1 := getTransactionCount w3 cs
      let g1 := getGasPrice n1.2
      let est := estimateGas env g1.2 toAddr data ⟨cs, 0, n1.1, g1.1⟩
      let n2 := getTransactionCount est.2 cs
      let g2 := getGasPrice n2.2
      let tx := buildTransaction env toAddr data ⟨cs, 0, n2.1, est.1, g2.1⟩
      .ok ({ st with
        fee := some est.1,
        transaction := some tx,
        type := some (codes "xinfin_refund_unsigned") }, g2.2)

/-- The f-string of the solver `isinstance` guards:
`Solver must be XinFin <Expected>, not <actual> type.` -/
def solverTypeMsg (expected actual : List Nat) : List Nat :=
  codes "Solver must be XinFin " ++ expected ++ codes ", not " ++ actual
    ++ codes " type."

/-- `FundTransaction.sign(solver)`: solver class check, key derivation,
external signing of the stored transaction dict, then the signature dict
and signed type tag are stored.  The result pairs the raised error (if
any) with the instance state afterwards. -/
def FundTransaction.sign (env : Env) (st : TransactionState) (solver : Solver) :
    Option SwapError × TransactionState :=
  if solver.role ≠ .fund then
    (some (.typeError (solverTypeMsg (codes "FundSolver")
      (solverClassName solver.role))), st)
  else
    match env.sign_transaction st.transaction (Solver.solve env solver) with
    | .error e => (some (.externalError e), st)
    | .ok sg =>
      (none, { st with
        signature := some sg,
        type := some (codes "xinfin_fund_signed") })

/-- `WithdrawTransaction.sign(solver)`. -/
def WithdrawTransaction.sign (env : Env) (st : TransactionState) (solver : Solver) :
    Option SwapError × TransactionState :=
  if solver.role ≠ .withdraw then
    (some (.typeError (solverTypeMsg (codes "WithdrawSolver")
      (solverClassName solver.role))), st)
  else
    match env.sign_transaction st.transaction (Solver.solve env solver) with
    | .error e => (some (.externalError e), st)
    | .ok sg =>
      (none, { st with
        signature := some sg,
        type := some (codes "xinfin_withdraw_signed") })

/-- `RefundTransaction.sign(solver)`. -/
def RefundTransaction.sign (env : Env) (st : TransactionState) (solver : Solver) :
    Option SwapError × TransactionState :=
  if solver.role ≠ .refund then
    (some (.typeError (solverTypeMsg (codes "RefundSolver")
      (solverClassName solver.role))), st)
  else
    match env.sign_transaction st.transaction (Solver.solve env solver) with
    | .error e => (some (.externalError e), st)
    | .ok sg =>
      (none, { st with
        signature := some sg,
        type := some (codes "xinfin_refund_signed") })

/-! Well-formedness of the stored dicts, bridging to the serializer's
`wfMembersB`. -/

/-- Printable-ASCII, escape-free string fields of a stored transaction
dict (always true of the hex addresses and hex call data the builders
store). -/
def wfTxB (t : TxDict) : Bool :=
  wfStrB t.fromAddress && wfStrB t.toAddress && wfStrB t.data

/-- Same for a stored signature dict. -/
def wfSigB (s : SignedTxn) : Bool :=
  wfStrB s.hash && wfStrB s.rawTransaction

/-- Well-formedness of a whole instance state. -/
def wfStateB (st : TransactionState) : Bool :=
  wfStrB st.network
    && (match st.transaction with | none => true | some t => wfTxB t)
    && (match st.signature with | none => true | some s => wfSigB s)
    && (match st.type with | none => true | some ty => wfStrB ty)

theorem wfMembersB_txAssoc {t : TxDict} (h : wfTxB t = true) :
    wfMembersB (txAssoc t) = true := by
  simp only [wfTxB, Bool.and_eq_true] at h
  rw [wfMembersB, List.all_eq_true]
  intro p hp
  simp only [txAssoc, List.mem_cons, List.not_mem_nil, or_false] at hp
  rcases hp with h1 | h1 | h1 | h1 | h1 | h1 | h1 | h1 <;> subst h1 <;>
    simp [wfLeafB, h.1.1, h.1.2, h.2] <;> decide

theorem wfMembersB_sigAssoc {s : SignedTxn} (h : wfSigB s = true) :
    wfMembersB (sigAssoc s) = true := by
  simp only [wfSigB, Bool.and_eq_true] at h
  rw [wfMembersB, List.all_eq_true]
  intro p hp
  simp only [sigAssoc, List.mem_cons, List.not_mem_nil, or_false] at hp
  rcases hp with h1 | h1 | h1 | h1 | h1 <;> subst h1 <;>
    simp [wfLeafB, h.1, h.2] <;> decide

/-- The raw string a built, well-formed instance encodes decodes back to
exactly the five stored fields. -/
theorem transaction_raw_decode {st : TransactionState} {tx : TxDict}
    (hb : st.transaction = some tx) (hwf : wfStateB st = true) :
    ∃ raw, Transaction.transaction_raw st = .ok raw ∧
      decodeRawR raw
        = some ⟨st.fee, txAssoc tx, st.signature.map sigAssoc,
            st.network, st.type⟩ := by
  simp only [wfStateB, Bool.and_eq_true] at hwf
  have hnw : wfStrB st.network = true := hwf.1.1.1
  have htx : wfTxB tx = true := by
    have := hwf.1.1.2
    rw [hb] at this
    exact this
  have hsig : ∀ fs, st.signature.map sigAssoc = some fs → wfMembersB fs = true := by
    intro fs hfs
    rcases hs : st.signature with _ | s
    · rw [hs] at hfs
      simp at hfs
    · rw [hs] at hfs
      simp at hfs
      have := hwf.1.2
      rw [hs] at this
      exact hfs ▸ wfMembersB_sigAssoc this
  have hty : ∀ u, st.type = some u → wfStrB u = true := by
    intro u hu
    have := hwf.2
    rw [hu] at this
    exact this
  refine ⟨clean_transaction_raw (b64e (dumpsTopRaw st.fee (dumpsObj (txAssoc tx))
      (st.signature.map sigAssoc) st.network st.type)), ?_, ?_⟩
  · rw [Transaction.transaction_raw, hb]
  · exact decodeRawR_encode st.fee (txAssoc tx) (st.signature.map sigAssoc)
      st.network st.type (wfMembersB_txAssoc htx) hsig hnw hty

/-! The dictionary view of a decoded TransactionRaw, for the left-inverse
property of the decoder. -/

/-- A JSON field value of the decoded top-level dictionary. -/
inductive JField where
  | nullF
  | num (n : Nat)
  | str (s : List Nat)
  | obj (fields : List (List Nat × JLeaf))
deriving DecidableEq

/-- `null`-or-int as a field value. -/
def jfOfOptNat : Option Nat → JField
  | none => .nullF
  | some n => .num n

/-- `null`-or-object as a field value. -/
def jfOfOptObj : Option (List (List Nat × JLeaf)) → JField
  | none => .nullF
  | some fs => .obj fs

/-- `null`-or-string as a field value. -/
def jfOfOptStr : Option (List Nat) → JField
  | none => .nullF
  | some s => .str s

/-- The decoded payload as the five-key dictionary
`{fee, transaction, signature, network, type}`. -/
def DecodedRaw.toDict (d : DecodedRaw) : List (List Nat × JField) :=
  [(codes "fee", jfOfOptNat d.fee), (codes "transaction", .obj d.transaction),
   (codes "signature", jfOfOptObj d.signature), (codes "network", .str d.network),
   (codes "type", jfOfOptStr d.type)]

/-- Modelled from the spec: the XinFin `decode_transaction_raw` of
`swap/providers/xinfin/utils.py` is not under `src/`.  Per spec sections 3
and 6 it decodes the blob and returns the dictionary of the five canonical
fields; `none` models the `"invalid transaction raw"` failure. -/
def decode_transaction_raw (raw : List Nat) : Option (List (List Nat × JField)) :=
  (decodeRawR raw).map DecodedRaw.toDict

/-! The Vapor refund signing paths.  Only the example script
`src/cryptocurrencies/vapor/refund.py` (with its byte-equality assert) is
under `src/`; the Vapor `RefundTransaction`, `RefundSolver` and
`RefundSignature` classes are not, so they are modelled from the spec
(sections 3, 4.4 and 4.5). -/

/-- Modelled from the spec: the Vapor refund Transaction state (spec
section 3) — network, fee, the chain-native unsigned transaction object
(represented as its JSON association list), the nullable signature, and
the kind tag. -/
structure VaporState where
  network : List Nat
  fee : Option Nat
  transaction : Option (List (List Nat × JLeaf))
  signature : Option SignedTxn
  type : Option (List Nat)
deriving DecidableEq

/-- Modelled from the spec: a Vapor `RefundSolver` (spec sections 2 and
4.3) — xprivate key, derivation path and the HTLC bytecode it binds. -/
structure VaporRefundSolver where
  xprivate_key : List Nat
  path : List Nat
  bytecode : List Nat
deriving DecidableEq

/-- Modelled from the spec: the Vapor chain's external collaborators —
wallet key derivation and the deterministic native signing algorithm
(spec section 4.4 requires deterministic signing, RFC6979 or equivalent). -/
structure VaporEnv where
  derive_private_key : List Nat → List Nat → List Nat
  vapor_sign : List (List Nat × JLeaf) → List Nat → SignedTxn

/-- Modelled from the spec: `RefundTransaction.sign(solver)` of the Vapor
provider (spec section 4.4) — requires a built transaction, derives the
key via the solver, applies the chain's deterministic signing algorithm to
the stored unsigned transaction, records the signature and mutates the
kind to the signed variant. -/
def VaporRefundTransaction.sign (env : VaporEnv) (st : VaporState)
    (solver : VaporRefundSolver) : Option SwapError × VaporState :=
  match st.transaction with
  | none => (some (.valueError notBuiltMsg), st)
  | some tx =>
    let sg := env.vapor_sign tx
      (env.derive_private_key solver.xprivate_key solver.path)
    (none, { st with
      signature := some sg,
      type := some (codes "vapor_refund_signed") })

/-- Modelled from the spec: the Vapor `transaction_raw()` (spec section 3)
— the same canonical portable encoding of
`{fee, transaction, signature, network, type}`. -/
def VaporState.transaction_raw (st : VaporState) : Except SwapError (List Nat) :=
  match st.transaction with
  | none => .error (.valueError notBuiltMsg)
  | some tx =>
    .ok (clean_transaction_raw (b64e (dumpsTopRaw st.fee (dumpsObj tx)
      (st.signature.map sigAssoc) st.network st.type)))

/-- Modelled from the spec: `RefundSignature.sign(transaction_raw, solver)`
(spec section 4.5) — decode the raw string, reconstruct the equivalent
in-memory unsigned transaction, and run the identical signing procedure;
an undecodable blob fails with "invalid transaction raw", a foreign type
tag with "unsupported transaction type". -/
def RefundSignature.sign (env : VaporEnv) (transaction_raw : List Nat)
    (solver : VaporRefundSolver) :
    Except SwapError (Option SwapError × VaporState) :=
  match decodeRawR transaction_raw with
  | none => .error (.valueError (codes "Invalid transaction raw"))
  | some d =>
    if d.type = some (codes "vapor_refund_unsigned") then
      .ok (VaporRefundTransaction.sign env
        { network := d.network, fee := d.fee, transaction := some d.transaction,
          signature := none, type := d.type } solver)
    else .error (.valueError (codes "Unsupported transaction raw type"))

/-- Well-formedness of a Vapor state (escape-free ASCII strings). -/
def wfVaporB (st : VaporState) : Bool :=
  wfStrB st.network
    && (match st.transaction with | none => true | some tx => wfMembersB tx)
    && (match st.signature with | none => true | some s => wfSigB s)
    && (match st.type with | none => true | some ty => wfStrB ty)

/-! The decode output asserted by the repository's own bitcoin utils test. -/

/-- The dictionary that `src/tests/providers/bitcoin/test_bitcoin_utils.py`
(lines 37-43) asserts `decode_transaction_raw` returns for the bitcoin
fund unsigned TransactionRaw fixture: keys `fee`, `network`, `tx`, `type`,
with `fee = 678` and `type = "bitcoin_fund_unsigned"` (the `network` and
`tx` values come from the fixture `values.json`). -/
def bitcoinFundUnsignedDecoded (network : List Nat)
    (txJson : List (List Nat × JLeaf)) : List (List Nat × JField) :=
  [(codes "fee", .num 678), (codes "network", .str network),
   (codes "tx", .obj txJson),
   (codes "type", .str (codes "bitcoin_fund_unsigned"))]

/-! Concrete instantiations of the external collaborators and states, used
to evaluate the model on explicit inputs. -/

/-- A concrete environment: identity checksumming, every address/network
accepted, a signer that depends on the private key and fails on a `None`
transaction dict (as web3 does). -/
def envA : Env :=
  { is_network := fun _ => true,
    is_address := fun _ => true,
    to_checksum_address := fun a => a,
    amount_unit_converter := fun _ _ => 7,
    derive_private_key := fun x p => x ++ p,
    sign_transaction := fun tx pk =>
      match tx with
      | none => .error (codes "web3 TypeError: transaction_dict is None")
      | some t => .ok ⟨pk, pk ++ natRepr t.nonce, 11, 12, 13⟩,
    chainId := 1337,
    encode_fund := fun _ => codes "0xf4fd",
    encode_withdraw := fun a b => a ++ b,
    encode_refund := fun a => a,
    htlc_contract_address := fun _ => codes "0xC0",
    receipt_logs := fun _ => [codes "log0"],
    locked_contract_id := fun l => l,
    estimate_gas := fun _ _ _ => 500 }

/-- A freshly initialized instance state (any role): nothing built. -/
def stUnbuilt : TransactionState :=
  { network := codes "mainnet", transaction := none, signature := none,
    type := none, fee := none }

/-- A concrete HTLC whose agreement sender is the (identity-checksummed)
address `X`. -/
def htlcA : HTLC :=
  { agreements :=
      { secret_hash := codes "5820eeb", recipient_address := codes "0xRec",
        sender_address := codes "X", endtime := 300 },
    contract_address := codes "0xC0" }

/-- A built unsigned fund transaction dict. -/
def txA : TxDict :=
  { chainId := 1337, fromAddress := codes "X", value := 3, nonce := 5,
    gas := 500, gasPrice := 9, toAddress := codes "0xC0", data := codes "0xf4fd" }

/-- A built-but-unsigned instance state. -/
def stBuiltA : TransactionState :=
  { network := codes "mainnet", transaction := some txA, signature := none,
    type := some (codes "xinfin_fund_unsigned"), fee := some 500 }

/-- A fund solver. -/
def fundSolverA : Solver :=
  { role := .fund, xprivate_key := codes "xprvA", path := codes "m/44/550/0" }

/-- A different fund solver (different key material). -/
def fundSolverB : Solver :=
  { role := .fund, xprivate_key := codes "xprvB", path := codes "m/44/550/0" }

/-- A refund solver (for wrong-role sign calls). -/
def refundSolverA : Solver :=
  { role := .refund, xprivate_key := codes "xprvA", path := codes "m/44/550/0" }

/-- A chain trace answering the same nonce to both RPC calls. -/
def w3A : Web3 := { nonces := [5, 5], gasPrices := [9, 9], estCalls := [] }

/-- A chain trace whose account nonce advances between the two
`get_transaction_count` calls of one build (0, then 1). -/
def w3Race : Web3 := { nonces := [0, 1], gasPrices := [9, 9], estCalls := [] }

/-- The fund build evaluated against the advancing-nonce trace. -/
def fundRace : Except SwapError (TransactionState × Web3) :=
  FundTransaction.build_transaction envA stUnbuilt w3Race (codes "X") htlcA 3

/-- A concrete Vapor environment (deterministic signer keyed on the
transaction's serialized bytes and the private key). -/
def venvA : VaporEnv :=
  { derive_private_key := fun x p => x ++ p,
    vapor_sign := fun tx pk => ⟨pk, pk ++ dumpsObj tx, 21, 22, 23⟩ }

/-- A built unsigned Vapor refund state. -/
def vstA : VaporState :=
  { network := codes "mainnet", fee := some 449000,
    transaction := some [(codes "hash", .str (codes "37b36d7b")),
      (codes "fee", .num 449000)],
    signature := none, type := some (codes "vapor_refund_unsigned") }

/-- A concrete Vapor refund solver. -/
def vsolverA : VaporRefundSolver :=
  { xprivate_key := codes "vxprv", path := codes "m/44/153/1/0/1",
    bytecode := codes "042ccf30" }

/-- On a built instance, fee(unit="Wei") returns the stored Wei fee. -/
theorem fee_wei_of_built {env : Env} {st : TransactionState} {tx : TxDict}
    (hb : st.transaction = some tx) :
    Transaction.fee env st (codes "Wei") = .ok (.wei st.fee) := by
  have hcond : ¬ ¬ (codes "Wei" = codes "XDC" ∨ codes "Wei" = codes "Gwei"
      ∨ codes "Wei" = codes "Wei") := by decide
  rw [Transaction.fee, hb, if_neg hcond, if_pos rfl]

/-! Claim theorems. -/

/-- Claim C4: every accessor among fee(), hash(), json(), raw(), type(),
signature(), transaction_raw() — shared by all three roles through the
base class — raises the ValueError "Transaction is none, build transaction
first." while `_transaction` is `None`, i.e. before `build_transaction`
has succeeded; freshly initialized instances of every role start in that
state. -/
theorem unbuilt_accessors_raise (env : Env) (st : TransactionState)
    (unit : List Nat) (h : st.transaction = none) :
    Transaction.fee env st unit = .error (.valueError notBuiltMsg)
      ∧ Transaction.hash st = .error (.valueError notBuiltMsg)
      ∧ Transaction.json st = .error (.valueError notBuiltMsg)
      ∧ Transaction.raw st = .error (.valueError notBuiltMsg)
      ∧ Transaction.type st = .error (.valueError notBuiltMsg)
      ∧ Transaction.signature st = .error (.valueError notBuiltMsg)
      ∧ Transaction.transaction_raw st = .error (.valueError notBuiltMsg)
      ∧ (∀ network st0, Transaction.init env network = .ok st0 →
          st0.transaction = none) := by
  refine ⟨?_, ?_, ?_, ?_, ?_, ?_, ?_, ?_⟩
  · rw [Transaction.fee, h]
  · rw [Transaction.hash, h]
  · rw [Transaction.json, h]
  · rw [Transaction.raw, h]
  · rw [Transaction.type, h]
  · rw [Transaction.signature, h]
  · rw [Transaction.transaction_raw, h]
  · intro network st0 h0
    rw [Transaction.init] at h0
    by_cases hn : env.is_network network
    · rw [if_pos hn] at h0
      simp only [Except.ok.injEq] at h0
      rw [← h0]
    · rw [if_neg hn] at h0
      exact absurd h0 (by simp)

/-- Witness for C4 at a concrete unbuilt instance. -/
theorem unbuilt_accessors_raise_witness :
    stUnbuilt.transaction = none
      ∧ Transaction.hash stUnbuilt = .error (.valueError notBuiltMsg) :=
  ⟨rfl, (unbuilt_accessors_raise envA stUnbuilt (codes "Wei") rfl).2.1⟩

/-- Claim C9 counterexample: on a built-but-unsigned transaction, hash()
and raw() return `None` (as `Except.ok none`), not an error or a
populated value — the claim says they must not silently return None. -/
theorem built_unsigned_hash_raw_none :
    Transaction.hash stBuiltA = .ok none
      ∧ Transaction.raw stBuiltA = .ok none :=
  ⟨rfl, rfl⟩

/-- Claim C9 (amended): on a built transaction every accessor returns
rather than raises, but hash(), raw() and signature() return `None` until
sign succeeds (their Python annotations are Optional); fee(), json(),
type() and transaction_raw() return the stored values. -/
theorem accessors_built_totality (env : Env) (st : TransactionState)
    (tx : TxDict) (hb : st.transaction = some tx) (hs : st.signature = none) :
    Transaction.hash st = .ok none
      ∧ Transaction.raw st = .ok none
      ∧ Transaction.signature st = .ok none
      ∧ Transaction.json st = .ok tx
      ∧ Transaction.fee env st (codes "Wei") = .ok (.wei st.fee)
      ∧ Transaction.type st = .ok st.type
      ∧ ∃ raw, Transaction.transaction_raw st = .ok raw := by
  have hcond : ¬ ¬ (codes "Wei" = codes "XDC" ∨ codes "Wei" = codes "Gwei"
      ∨ codes "Wei" = codes "Wei") := by decide
  refine ⟨?_, ?_, ?_, ?_, ?_, ?_, ?_⟩
  · rw [Transaction.hash, hb, hs]
    rfl
  · rw [Transaction.raw, hb, hs]
    rfl
  · rw [Transaction.signature, hb, hs]
  · rw [Transaction.json, hb]
  · rw [Transaction.fee, hb, if_neg hcond, if_pos rfl]
  · rw [Transaction.type, hb]
  · exact ⟨clean_transaction_raw (b64e (dumpsTopRaw st.fee (dumpsObj (txAssoc tx))
      (st.signature.map sigAssoc) st.network st.type)),
      by rw [Transaction.transaction_raw, hb]⟩

/-- Witness for the amended C9 at a concrete built unsigned instance. -/
theorem accessors_built_totality_witness :
    stBuiltA.transaction = some txA ∧ stBuiltA.signature = none
      ∧ Transaction.json stBuiltA = .ok txA :=
  ⟨rfl, rfl, (accessors_built_totality envA stBuiltA txA rfl rfl).2.2.2.1⟩

/-- Claim C6: signing with a solver of a different role raises a TypeError
whose message embeds both the expected solver class name and the actual
solver's class name, leaving the instance state unchanged — for each of
the three roles. -/
theorem wrong_solver_type_error (env : Env) (st : TransactionState)
    (solver : Solver) :
    (solver.role ≠ .fund →
      FundTransaction.sign env st solver
          = (some (.typeError (solverTypeMsg (codes "FundSolver")
              (solverClassName solver.role))), st)
        ∧ ∃ a b c, solverTypeMsg (codes "FundSolver") (solverClassName solver.role)
            = a ++ (codes "FundSolver" ++ (b ++ (solverClassName solver.role ++ c))))
      ∧ (solver.role ≠ .withdraw →
        WithdrawTransaction.sign env st solver
            = (some (.typeError (solverTypeMsg (codes "WithdrawSolver")
                (solverClassName solver.role))), st)
          ∧ ∃ a b c, solverTypeMsg (codes "WithdrawSolver") (solverClassName solver.role)
              = a ++ (codes "WithdrawSolver" ++ (b ++ (solverClassName solver.role ++ c))))
      ∧ (solver.role ≠ .refund →
        RefundTransaction.sign env st solver
            = (some (.typeError (solverTypeMsg (codes "RefundSolver")
                (solverClassName solver.role))), st)
          ∧ ∃ a b c, solverTypeMsg (codes "RefundSolver") (solverClassName solver.role)
              = a ++ (codes "RefundSolver" ++ (b ++ (solverClassName solver.role ++ c)))) := by
  refine ⟨fun h => ⟨?_, ?_⟩, fun h => ⟨?_, ?_⟩, fun h => ⟨?_, ?_⟩⟩
  · rw [FundTransaction.sign, if_pos h]
  · exact ⟨codes "Solver must be XinFin ", codes ", not ", codes " type.",
      by simp [solverTypeMsg, List.append_assoc]⟩
  · rw [WithdrawTransaction.sign, if_pos h]
  · exact ⟨codes "Solver must be XinFin ", codes ", not ", codes " type.",
      by simp [solverTypeMsg, List.append_assoc]⟩
  · rw [RefundTransaction.sign, if_pos h]
  · exact ⟨codes "Solver must be XinFin ", codes ", not ", codes " type.",
      by simp [solverTypeMsg, List.append_assoc]⟩

/-- Witness for C6: a RefundSolver passed to WithdrawTransaction.sign. -/
theorem wrong_solver_type_error_witness :
    refundSolverA.role ≠ SolverRole.withdraw
      ∧ WithdrawTransaction.sign envA stBuiltA refundSolverA
          = (some (.typeError (solverTypeMsg (codes "WithdrawSolver")
              (solverClassName refundSolverA.role))), stBuiltA) :=
  ⟨by decide,
    ((wrong_solver_type_error envA stBuiltA refundSolverA).2.1 (by decide)).1⟩

/-- Claim C3 counterexample: sign on an unbuilt transaction with a solver
of the matching role does not fail with the "transaction not built"
ValueError; it derives the key and hands `None` to the external signer,
whose own error is what surfaces. -/
theorem sign_unbuilt_no_value_error :
    (FundTransaction.sign envA stUnbuilt fundSolverA).1
        = some (.externalError (codes "web3 TypeError: transaction_dict is None"))
      ∧ (FundTransaction.sign envA stUnbuilt fundSolverA).1
        ≠ some (.valueError notBuiltMsg) := by
  decide

/-- Claim C3 (amended): sign performs no built-state check: with a solver
of the matching role it derives the key and passes the stored (here
`None`) transaction straight to the external signing collaborator, whose
outcome is returned unchanged; in no case does sign raise the
"Transaction is none, build transaction first." ValueError itself. -/
theorem sign_unbuilt_reaches_external_signer (env : Env) (st : TransactionState)
    (solver : Solver) (h : st.transaction = none) :
    (solver.role = .fund →
      FundTransaction.sign env st solver
        = match env.sign_transaction none (Solver.solve env solver) with
          | .error e => (some (.externalError e), st)
          | .ok sg => (none, { st with
              signature := some sg, type := some (codes "xinfin_fund_signed") }))
      ∧ (solver.role = .withdraw →
        WithdrawTransaction.sign env st solver
          = match env.sign_transaction none (Solver.solve env solver) with
            | .error e => (some (.externalError e), st)
            | .ok sg => (none, { st with
                signature := some sg, type := some (codes "xinfin_withdraw_signed") }))
      ∧ (solver.role = .refund →
        RefundTransaction.sign env st solver
          = match env.sign_transaction none (Solver.solve env solver) with
            | .error e => (some (.externalError e), st)
            | .ok sg => (none, { st with
                signature := some sg, type := some (codes "xinfin_refund_signed") }))
      ∧ (FundTransaction.sign env st solver).1 ≠ some (.valueError notBuiltMsg)
      ∧ (WithdrawTransaction.sign env st solver).1 ≠ some (.valueError notBuiltMsg)
      ∧ (RefundTransaction.sign env st solver).1 ≠ some (.valueError notBuiltMsg) := by
  refine ⟨?_, ?_, ?_, ?_, ?_, ?_⟩
  · intro hrole
    rw [FundTransaction.sign, if_neg (by simp [hrole]), h]
  · intro hrole
    rw [WithdrawTransaction.sign, if_neg (by simp [hrole]), h]
  · intro hrole
    rw [RefundTransaction.sign, if_neg (by simp [hrole]), h]
  · rw [FundTransaction.sign]
    by_cases hr : solver.role ≠ .fund
    · rw [if_pos hr]
      simp [notBuiltMsg, solverTypeMsg]
    · rw [if_neg hr]
      cases env.sign_transaction st.transaction (Solver.solve env solver) <;> simp
  · rw [WithdrawTransaction.sign]
    by_cases hr : solver.role ≠ .withdraw
    · rw [if_pos hr]
      simp [notBuiltMsg, solverTypeMsg]
    · rw [if_neg hr]
      cases env.sign_transaction st.transaction (Solver.solve env solver) <;> simp
  · rw [RefundTransaction.sign]
    by_cases hr : solver.role ≠ .refund
    · rw [if_pos hr]
      simp [notBuiltMsg, solverTypeMsg]
    · rw [if_neg hr]
      cases env.sign_transaction st.transaction (Solver.solve env solver) <;> simp

/-- Witness for the amended C3 at a concrete unbuilt instance. -/
theorem sign_unbuilt_reaches_external_signer_witness :
    stUnbuilt.transaction = none
      ∧ (FundTransaction.sign envA stUnbuilt fundSolverA).1
          ≠ some (.valueError notBuiltMsg) :=
  ⟨rfl,
    (sign_unbuilt_reaches_external_signer envA stUnbuilt fundSolverA rfl).2.2.2.1⟩

/-- Claim C5 counterexample: after a successful sign, a second sign call
with a different fund solver succeeds and replaces the stored signature —
the signature is not immutable and re-signing is not prevented. -/
theorem resign_overwrites_signature :
    ((FundTransaction.sign envA
        ((FundTransaction.sign envA stBuiltA fundSolverA).2) fundSolverB).2).signature
        ≠ (FundTransaction.sign envA stBuiltA fundSolverA).2.signature
      ∧ (FundTransaction.sign envA
          ((FundTransaction.sign envA stBuiltA fundSolverA).2) fundSolverB).1 = none := by
  decide

/-- The signature stored by `envA`'s signer for `stBuiltA` under
`fundSolverA`. -/
def sgA : SignedTxn :=
  { hash := codes "xprvA" ++ codes "m/44/550/0",
    rawTransaction := (codes "xprvA" ++ codes "m/44/550/0") ++ natRepr 5,
    r := 11, s := 12, v := 13 }

/-- Claim C5 (amended): in every role, a successful sign stores exactly the
external signer's output for the stored transaction dict and the solver's
derived key — so re-signing with the same solver reproduces the same
stored signature — but sign is free to run again and overwrites the field
(a different solver's sign replaces the signature, as the counterexample
shows).  Sign is the only operation that sets the field: every role's
build_transaction leaves the stored signature unchanged, and the accessors
are read-only in the source, embedded as pure functions of the state that
return no new state. -/
theorem sign_sets_signature_deterministic (env : Env) (st st2 : TransactionState)
    (w3 w32 : Web3) (solver : Solver) (sg : SignedTxn)
    (hsig : env.sign_transaction st.transaction (Solver.solve env solver) = .ok sg) :
    (solver.role = .fund →
      (FundTransaction.sign env st solver).2.signature = some sg
        ∧ (FundTransaction.sign env
            ((FundTransaction.sign env st solver).2) solver).2.signature = some sg)
      ∧ (solver.role = .withdraw →
        (WithdrawTransaction.sign env st solver).2.signature = some sg
          ∧ (WithdrawTransaction.sign env
              ((WithdrawTransaction.sign env st solver).2) solver).2.signature = some sg)
      ∧ (solver.role = .refund →
        (RefundTransaction.sign env st solver).2.signature = some sg
          ∧ (RefundTransaction.sign env
              ((RefundTransaction.sign env st solver).2) solver).2.signature = some sg)
      ∧ (∀ address htlc amount,
        FundTransaction.build_transaction env st w3 address htlc amount
            = .ok (st2, w32) → st2.signature = st.signature)
      ∧ (∀ th address sk hth,
        WithdrawTransaction.build_transaction env st w3 th address sk hth
            = .ok (st2, w32) → st2.signature = st.signature)
      ∧ (∀ th address hth,
        RefundTransaction.build_transaction env st w3 th address hth
            = .ok (st2, w32) → st2.signature = st.signature) := by
  refine ⟨?_, ?_, ?_, ?_, ?_, ?_⟩
  · intro hrole
    have h1 : FundTransaction.sign env st solver
        = (none, { st with
            signature := some sg, type := some (codes "xinfin_fund_signed") }) := by
      rw [FundTransaction.sign, if_neg (by simp [hrole]), hsig]
    have h2 : env.sign_transaction
        ({ st with
          signature := some sg,
          type := some (codes "xinfin_fund_signed") } : TransactionState).transaction
        (Solver.solve env solver) = .ok sg := hsig
    constructor
    · rw [h1]
    · rw [h1]
      show (FundTransaction.sign env
        { st with
          signature := some sg,
          type := some (codes "xinfin_fund_signed") }
        solver).2.signature = some sg
      rw [FundTransaction.sign, if_neg (by simp [hrole]), h2]
  · intro hrole
    have h1 : WithdrawTransaction.sign env st solver
        = (none, { st with
            signature := some sg, type := some (codes "xinfin_withdraw_signed") }) := by
      rw [WithdrawTransaction.sign, if_neg (by simp [hrole]), hsig]
    have h2 : env.sign_transaction
        ({ st with
          signature := some sg,
          type := some (codes "xinfin_withdraw_signed") } : TransactionState).transaction
        (Solver.solve env solver) = .ok sg := hsig
    constructor
    · rw [h1]
    · rw [h1]
      show (WithdrawTransaction.sign env
        { st with
          signature := some sg,
          type := some (codes "xinfin_withdraw_signed") }
        solver).2.signature = some sg
      rw [WithdrawTransaction.sign, if_neg (by simp [hrole]), h2]
  · intro hrole
    have h1 : RefundTransaction.sign env st solver
        = (none, { st with
            signature := some sg, type := some (codes "xinfin_refund_signed") }) := by
      rw [RefundTransaction.sign, if_neg (by simp [hrole]), hsig]
    have h2 : env.sign_transaction
        ({ st with
          signature := some sg,
          type := some (codes "xinfin_refund_signed") } : TransactionState).transaction
        (Solver.solve env solver) = .ok sg := hsig
    constructor
    · rw [h1]
    · rw [h1]
      show (RefundTransaction.sign env
        { st with
          signature := some sg,
          type := some (codes "xinfin_refund_signed") }
        solver).2.signature = some sg
      rw [RefundTransaction.sign, if_neg (by simp [hrole]), h2]
  · intro address htlc amount hbuild
    by_cases ha : env.is_address address
    · by_cases hck : env.to_checksum_address address = htlc.agreements.sender_address
      · rw [FundTransaction.build_transaction, if_neg (by simp [ha]),
          if_neg (by simp [hck])] at hbuild
        simp only [Except.ok.injEq, Prod.mk.injEq] at hbuild
        obtain ⟨h1, h2⟩ := hbuild
        subst h1
        rfl
      · rw [FundTransaction.build_transaction, if_neg (by simp [ha]),
          if_pos hck] at hbuild
        exact absurd hbuild (by simp)
    · rw [FundTransaction.build_transaction, if_pos (by simp [ha])] at hbuild
      exact absurd hbuild (by simp)
  · intro th address sk hth hbuild
    by_cases ha : env.is_address address
    · rw [WithdrawTransaction.build_transaction, if_neg (by simp [ha])] at hbuild
      rcases hlog : (env.receipt_logs th).head? with _ | log0 <;>
        rw [hlog] at hbuild
      · exact absurd hbuild (by simp)
      · simp only [Except.ok.injEq, Prod.mk.injEq] at hbuild
        obtain ⟨h1, h2⟩ := hbuild
        subst h1
        rfl
    · rw [WithdrawTransaction.build_transaction, if_pos (by simp [ha])] at hbuild
      exact absurd hbuild (by simp)
  · intro th address hth hbuild
    by_cases ha : env.is_address address
    · rw [RefundTransaction.build_transaction, if_neg (by simp [ha])] at hbuild
      rcases hlog : (env.receipt_logs th).head? with _ | log0 <;>
        rw [hlog] at hbuild
      · exact absurd hbuild (by simp)
      · simp only [Except.ok.injEq, Prod.mk.injEq] at hbuild
        obtain ⟨h1, h2⟩ := hbuild
        subst h1
        rfl
    · rw [RefundTransaction.build_transaction, if_pos (by simp [ha])] at hbuild
      exact absurd hbuild (by simp)

/-- Witness for the amended C5: a concrete refund sign and its re-sign with
the same solver store the same signature. -/
theorem sign_sets_signature_deterministic_witness :
    refundSolverA.role = SolverRole.refund
      ∧ envA.sign_transaction stBuiltA.transaction (Solver.solve envA refundSolverA)
          = .ok sgA
      ∧ ((RefundTransaction.sign envA stBuiltA refundSolverA).2.signature = some sgA
        ∧ (RefundTransaction.sign envA
            ((RefundTransaction.sign envA stBuiltA refundSolverA).2)
            refundSolverA).2.signature = some sgA) :=
  ⟨rfl, rfl,
    (sign_sets_signature_deterministic envA stBuiltA stBuiltA w3A w3A
        refundSolverA sgA rfl).2.2.1 rfl⟩

/-- Claim C8: FundTransaction.build_transaction raises AddressError when the
sender address is malformed (`is_address` false), raises AddressError when
its checksum form differs from the HTLC agreement's stored sender address,
and builds the transaction (storing `_transaction` and `_fee`) exactly when
both checks pass. -/
theorem fund_address_validation (env : Env) (st : TransactionState) (w3 : Web3)
    (address : List Nat) (htlc : HTLC) (amount : Nat) :
    (env.is_address address = false →
      FundTransaction.build_transaction env st w3 address htlc amount
        = .error (.addressError
            (codes "Invalid XinFin sender '" ++ address ++ codes "' address.") none))
      ∧ (env.is_address address = true →
          env.to_checksum_address address ≠ htlc.agreements.sender_address →
        FundTransaction.build_transaction env st w3 address htlc amount
          = .error (.addressError
              (codes "Wrong XinFin sender '" ++ address ++ codes "' address")
              (some (codes "address must be equal with HTLC agreements sender address."))))
      ∧ (env.is_address address = true →
          env.to_checksum_address address = htlc.agreements.sender_address →
        ∃ st2 w32 tx,
          FundTransaction.build_transaction env st w3 address htlc amount
              = .ok (st2, w32)
            ∧ st2.transaction = some tx ∧ st2.fee = some tx.gas) := by
  refine ⟨?_, ?_, ?_⟩
  · intro h
    rw [FundTransaction.build_transaction, if_pos (by simp [h])]
  · intro h hck
    rw [FundTransaction.build_transaction, if_neg (by simp [h]), if_pos hck]
  · intro h hck
    rw [FundTransaction.build_transaction, if_neg (by simp [h]),
      if_neg (by simp [hck])]
    exact ⟨_, _, _, rfl, rfl, rfl⟩

/-- Witness for C8: both checks pass on a concrete input and the build
succeeds. -/
theorem fund_address_validation_witness :
    envA.is_address (codes "X") = true
      ∧ envA.to_checksum_address (codes "X") = htlcA.agreements.sender_address
      ∧ ∃ st2 w32 tx,
        FundTransaction.build_transaction envA stUnbuilt w3A (codes "X") htlcA 3
            = .ok (st2, w32)
          ∧ st2.transaction = some tx ∧ st2.fee = some tx.gas :=
  ⟨rfl, rfl,
    (fund_address_validation envA stUnbuilt w3A (codes "X") htlcA 3).2.2 rfl rfl⟩

/-- Claim C10: after every successful build of every role, the stored fee
equals the `gas` field of the stored unsigned transaction dict and
fee(unit="Wei") returns that same integer; the sign methods of every role
touch neither `_fee` nor `_transaction`. -/
theorem fee_equals_gas_invariant (env : Env) (st st2 : TransactionState)
    (w3 w32 : Web3) :
    (∀ address htlc amount,
      FundTransaction.build_transaction env st w3 address htlc amount
          = .ok (st2, w32) →
      ∃ tx, st2.transaction = some tx ∧ st2.fee = some tx.gas
        ∧ Transaction.fee env st2 (codes "Wei") = .ok (.wei (some tx.gas)))
      ∧ (∀ th address sk hth,
        WithdrawTransaction.build_transaction env st w3 th address sk hth
            = .ok (st2, w32) →
        ∃ tx, st2.transaction = some tx ∧ st2.fee = some tx.gas
          ∧ Transaction.fee env st2 (codes "Wei") = .ok (.wei (some tx.gas)))
      ∧ (∀ th address hth,
        RefundTransaction.build_transaction env st w3 th address hth
            = .ok (st2, w32) →
        ∃ tx, st2.transaction = some tx ∧ st2.fee = some tx.gas
          ∧ Transaction.fee env st2 (codes "Wei") = .ok (.wei (some tx.gas)))
      ∧ (∀ solver,
        ((FundTransaction.sign env st solver).2.fee = st.fee
          ∧ (FundTransaction.sign env st solver).2.transaction = st.transaction)
        ∧ ((WithdrawTransaction.sign env st solver).2.fee = st.fee
          ∧ (WithdrawTransaction.sign env st solver).2.transaction = st.transaction)
        ∧ ((RefundTransaction.sign env st solver).2.fee = st.fee
          ∧ (RefundTransaction.sign env st solver).2.transaction = st.transaction)) := by
  refine ⟨?_, ?_, ?_, ?_⟩
  · intro address htlc amount hbuild
    by_cases ha : env.is_address address
    · by_cases hck : env.to_checksum_address address = htlc.agreements.sender_address
      · rw [FundTransaction.build_transaction, if_neg (by simp [ha]),
          if_neg (by simp [hck])] at hbuild
        simp only [Except.ok.injEq, Prod.mk.injEq] at hbuild
        obtain ⟨h1, h2⟩ := hbuild
        subst h1
        refine ⟨_, rfl, rfl, ?_⟩
        rw [fee_wei_of_built rfl]
        rfl
      · rw [FundTransaction.build_transaction, if_neg (by simp [ha]),
          if_pos hck] at hbuild
        exact absurd hbuild (by simp)
    · rw [FundTransaction.build_transaction, if_pos (by simp [ha])] at hbuild
      exact absurd hbuild (by simp)
  · intro th address sk hth hbuild
    by_cases ha : env.is_address address
    · rw [WithdrawTransaction.build_transaction, if_neg (by simp [ha])] at hbuild
      rcases hlog : (env.receipt_logs th).head? with _ | log0 <;>
        rw [hlog] at hbuild
      · exact absurd hbuild (by simp)
      · simp only [Except.ok.injEq, Prod.mk.injEq] at hbuild
        obtain ⟨h1, h2⟩ := hbuild
        subst h1
        refine ⟨_, rfl, rfl, ?_⟩
        rw [fee_wei_of_built rfl]
        rfl
    · rw [WithdrawTransaction.build_transaction, if_pos (by simp [ha])] at hbuild
      exact absurd hbuild (by simp)
  · intro th address hth hbuild
    by_cases ha : env.is_address address
    · rw [RefundTransaction.build_transaction, if_neg (by simp [ha])] at hbuild
      rcases hlog : (env.receipt_logs th).head? with _ | log0 <;>
        rw [hlog] at hbuild
      · exact absurd hbuild (by simp)
      · simp only [Except.ok.injEq, Prod.mk.injEq] at hbuild
        obtain ⟨h1, h2⟩ := hbuild
        subst h1
        refine ⟨_, rfl, rfl, ?_⟩
        rw [fee_wei_of_built rfl]
        rfl
    · rw [RefundTransaction.build_transaction, if_pos (by simp [ha])] at hbuild
      exact absurd hbuild (by simp)
  · intro solver
    refine ⟨⟨?_, ?_⟩, ⟨?_, ?_⟩, ⟨?_, ?_⟩⟩
    · rw [FundTransaction.sign]
      by_cases hr : solver.role ≠ .fund
      · rw [if_pos hr]
      · rw [if_neg hr]
        cases env.sign_transaction st.transaction (Solver.solve env solver) <;> rfl
    · rw [FundTransaction.sign]
      by_cases hr : solver.role ≠ .fund
      · rw [if_pos hr]
      · rw [if_neg hr]
        cases env.sign_transaction st.transaction (Solver.solve env solver) <;> rfl
    · rw [WithdrawTransaction.sign]
      by_cases hr : solver.role ≠ .withdraw
      · rw [if_pos hr]
      · rw [if_neg hr]
        cases env.sign_transaction st.transaction (Solver.solve env solver) <;> rfl
    · rw [WithdrawTransaction.sign]
      by_cases hr : solver.role ≠ .withdraw
      · rw [if_pos hr]
      · rw [if_neg hr]
        cases env.sign_transaction st.transaction (Solver.solve env solver) <;> rfl
    · rw [RefundTransaction.sign]
      by_cases hr : solver.role ≠ .refund
      · rw [if_pos hr]
      · rw [if_neg hr]
        cases env.sign_transaction st.transaction (Solver.solve env solver) <;> rfl
    · rw [RefundTransaction.sign]
      by_cases hr : solver.role ≠ .refund
      · rw [if_pos hr]
      · rw [if_neg hr]
        cases env.sign_transaction st.transaction (Solver.solve env solver) <;> rfl

/-- Witness for C10: a concrete successful fund build where
`fee = gas = 500`. -/
theorem fee_equals_gas_invariant_witness :
    FundTransaction.build_transaction envA stUnbuilt w3A (codes "X") htlcA 3
        = .ok (stBuiltA,
            { nonces := [], gasPrices := [], estCalls := [⟨codes "X", 3, 5, 9⟩] })
      ∧ ∃ tx, stBuiltA.transaction = some tx ∧ stBuiltA.fee = some tx.gas
        ∧ Transaction.fee envA stBuiltA (codes "Wei") = .ok (.wei (some tx.gas)) :=
  ⟨rfl,
    (fee_equals_gas_invariant envA stUnbuilt stBuiltA w3A _).1 (codes "X") htlcA 3 rfl⟩

/-- Claim C7 (amended): within one build of any role the nonce used for fee
estimation and the nonce placed in the assembled transaction come from two
separate `get_transaction_count` RPC calls; they coincide whenever the
chain answers both calls with the same value (an unchanged account-state
snapshot), which the code itself does not enforce. -/
theorem nonce_equal_of_equal_responses (env : Env) (st st2 : TransactionState)
    (w3 w32 : Web3) (hstable : w3.nonces.headD 0 = w3.nonces.tail.headD 0) :
    (∀ address htlc amount,
      FundTransaction.build_transaction env st w3 address htlc amount
          = .ok (st2, w32) →
      ∃ p tx, w32.estCalls = w3.estCalls ++ [p] ∧ st2.transaction = some tx
        ∧ p.nonce = tx.nonce)
      ∧ (∀ th address sk hth,
        WithdrawTransaction.build_transaction env st w3 th address sk hth
            = .ok (st2, w32) →
        ∃ p tx, w32.estCalls = w3.estCalls ++ [p] ∧ st2.transaction = some tx
          ∧ p.nonce = tx.nonce)
      ∧ (∀ th address hth,
        RefundTransaction.build_transaction env st w3 th address hth
            = .ok (st2, w32) →
        ∃ p tx, w32.estCalls = w3.estCalls ++ [p] ∧ st2.transaction = some tx
          ∧ p.nonce = tx.nonce) := by
  refine ⟨?_, ?_, ?_⟩
  · intro address htlc amount hbuild
    by_cases ha : env.is_address address
    · by_cases hck : env.to_checksum_address address = htlc.agreements.sender_address
      · rw [FundTransaction.build_transaction, if_neg (by simp [ha]),
          if_neg (by simp [hck])] at hbuild
        simp only [Except.ok.injEq, Prod.mk.injEq] at hbuild
        obtain ⟨h1, h2⟩ := hbuild
        subst h1
        subst h2
        exact ⟨_, _, rfl, rfl, hstable⟩
      · rw [FundTransaction.build_transaction, if_neg (by simp [ha]),
          if_pos hck] at hbuild
        exact absurd hbuild (by simp)
    · rw [FundTransaction.build_transaction, if_pos (by simp [ha])] at hbuild
      exact absurd hbuild (by simp)
  · intro th address sk hth hbuild
    by_cases ha : env.is_address address
    · rw [WithdrawTransaction.build_transaction, if_neg (by simp [ha])] at hbuild
      rcases hlog : (env.receipt_logs th).head? with _ | log0 <;>
        rw [hlog] at hbuild
      · exact absurd hbuild (by simp)
      · simp only [Except.ok.injEq, Prod.mk.injEq] at hbuild
        obtain ⟨h1, h2⟩ := hbuild
        subst h1
        subst h2
        exact ⟨_, _, rfl, rfl, hstable⟩
    · rw [WithdrawTransaction.build_transaction, if_pos (by simp [ha])] at hbuild
      exact absurd hbuild (by simp)
  · intro th address hth hbuild
    by_cases ha : env.is_address address
    · rw [RefundTransaction.build_transaction, if_neg (by simp [ha])] at hbuild
      rcases hlog : (env.receipt_logs th).head? with _ | log0 <;>
        rw [hlog] at hbuild
      · exact absurd hbuild (by simp)
      · simp only [Except.ok.injEq, Prod.mk.injEq] at hbuild
        obtain ⟨h1, h2⟩ := hbuild
        subst h1
        subst h2
        exact ⟨_, _, rfl, rfl, hstable⟩
    · rw [RefundTransaction.build_transaction, if_pos (by simp [ha])] at hbuild
      exact absurd hbuild (by simp)

/-- Witness for the amended C7: with a stable chain trace (both nonce
answers 5), estimation nonce and assembled nonce agree on a concrete fund
build. -/
theorem nonce_equal_of_equal_responses_witness :
    w3A.nonces.headD 0 = w3A.nonces.tail.headD 0
      ∧ FundTransaction.build_transaction envA stUnbuilt w3A (codes "X") htlcA 3
          = .ok (stBuiltA,
              { nonces := [], gasPrices := [], estCalls := [⟨codes "X", 3, 5, 9⟩] })
      ∧ ∃ (p : EstParams) (tx : TxDict),
        ({ nonces := [], gasPrices := [],
            estCalls := [⟨codes "X", 3, 5, 9⟩] } : Web3).estCalls
            = w3A.estCalls ++ [p]
          ∧ stBuiltA.transaction = some tx ∧ p.nonce = tx.nonce :=
  ⟨rfl, rfl,
    (nonce_equal_of_equal_responses envA stUnbuilt stBuiltA w3A
        { nonces := [], gasPrices := [], estCalls := [⟨codes "X", 3, 5, 9⟩] } rfl).1
      (codes "X") htlcA 3 rfl⟩

/-- Claim C7 counterexample: with a chain whose account nonce advances
between the two RPC calls of one fund build (answers 0 then 1), the fee
estimate observes nonce 0 while the assembled transaction carries nonce 1
— fee estimation and assembly do not share one account-state snapshot. -/
theorem nonce_snapshot_counterexample :
    (fundRace.toOption.map fun p => p.2.estCalls.map fun q => q.nonce) = some [0]
      ∧ (fundRace.toOption.map fun p => p.1.transaction.map fun t => t.nonce)
          = some (some 1)
      ∧ (0 : Nat) ≠ 1 :=
  ⟨rfl, rfl, by omega⟩

/-- Claim C2 counterexample: the repository's own bitcoin utils test
(`src/tests/providers/bitcoin/test_bitcoin_utils.py`, lines 37-43) asserts
that decoding a built bitcoin fund transaction's raw yields exactly the
four keys fee, network, tx, type — no "signature" key, "tx" instead of
"transaction" — so "every built Transaction (any role)" does not decode to
the five-key dictionary the claim states. -/
theorem bitcoin_decode_four_keys :
    (bitcoinFundUnsignedDecoded (codes "testnet") []).map Prod.fst
        = [codes "fee", codes "network", codes "tx", codes "type"]
      ∧ codes "signature" ∉ (bitcoinFundUnsignedDecoded (codes "testnet") []).map Prod.fst
      ∧ codes "transaction" ∉ (bitcoinFundUnsignedDecoded (codes "testnet") []).map Prod.fst
      ∧ ([codes "fee", codes "network", codes "tx", codes "type"] : List (List Nat))
          ≠ [codes "fee", codes "transaction", codes "signature",
              codes "network", codes "type"] :=
  ⟨rfl, by decide, by decide, by decide⟩

/-- Claim C2 (amended): for the XinFin provider under `src/`, decode is a
left inverse of the raw encoder: for every built, well-formed Transaction
(signed or unsigned), decoding `transaction_raw()` returns exactly the
dictionary with the five keys fee, transaction, signature, network, type,
whose values equal the stored fields.  (Per the repository's bitcoin test,
the bitcoin provider's decode instead returns the keys fee, network, tx,
type, so the five-key form holds for the xinfin encoding, not for every
provider.) -/
theorem xinfin_decode_left_inverse (st : TransactionState) (tx : TxDict)
    (hb : st.transaction = some tx) (hwf : wfStateB st = true) :
    ∃ raw, Transaction.transaction_raw st = .ok raw
      ∧ decode_transaction_raw raw
          = some [(codes "fee", jfOfOptNat st.fee),
              (codes "transaction", .obj (txAssoc tx)),
              (codes "signature", jfOfOptObj (st.signature.map sigAssoc)),
              (codes "network", .str st.network),
              (codes "type", jfOfOptStr st.type)]
      ∧ (decode_transaction_raw raw).map (List.map Prod.fst)
          = some [codes "fee", codes "transaction", codes "signature",
              codes "network", codes "type"] := by
  obtain ⟨raw, h1, h2⟩ := transaction_raw_decode hb hwf
  refine ⟨raw, h1, ?_, ?_⟩
  · rw [decode_transaction_raw, h2]
    rfl
  · rw [decode_transaction_raw, h2]
    rfl

/-- Witness for the amended C2 at a concrete built unsigned instance. -/
theorem xinfin_decode_left_inverse_witness :
    stBuiltA.transaction = some txA ∧ wfStateB stBuiltA = true
      ∧ ∃ raw, Transaction.transaction_raw stBuiltA = .ok raw
        ∧ decode_transaction_raw raw
            = some [(codes "fee", jfOfOptNat stBuiltA.fee),
                (codes "transaction", .obj (txAssoc txA)),
                (codes "signature", jfOfOptObj (stBuiltA.signature.map sigAssoc)),
                (codes "network", .str stBuiltA.network),
                (codes "type", jfOfOptStr stBuiltA.type)] := by
  refine ⟨rfl, by decide, ?_⟩
  obtain ⟨raw, h1, h2, h3⟩ := xinfin_decode_left_inverse stBuiltA txA rfl (by decide)
  exact ⟨raw, h1, h2⟩

/-- Claim C1: for every built well-formed unsigned refund state and every
solver, signing via the Signature facade — decoding the unsigned
TransactionRaw string, reconstructing the transaction, and running the
identical signing procedure, as RefundSignature.sign does — produces the
same outcome, and in particular a byte-identical signed TransactionRaw
string, as calling sign on the original builder state and encoding it with
transaction_raw(). -/
theorem refund_signature_path_equiv (env : VaporEnv) (st : VaporState)
    (tx : List (List Nat × JLeaf)) (solver : VaporRefundSolver)
    (hb : st.transaction = some tx) (hs : st.signature = none)
    (hty : st.type = some (codes "vapor_refund_unsigned"))
    (hwf : wfVaporB st = true) :
    ∃ raw, VaporState.transaction_raw st = .ok raw
      ∧ RefundSignature.sign env raw solver
          = .ok (VaporRefundTransaction.sign env st solver)
      ∧ (RefundSignature.sign env raw solver).map
            (fun p => VaporState.transaction_raw p.2)
          = .ok (VaporState.transaction_raw
              (VaporRefundTransaction.sign env st solver).2) := by
  simp only [wfVaporB, Bool.and_eq_true] at hwf
  have hnw : wfStrB st.network = true := hwf.1.1.1
  have htxwf : wfMembersB tx = true := by
    have h := hwf.1.1.2
    rw [hb] at h
    exact h
  have hdec : decodeRawR (clean_transaction_raw (b64e (dumpsTopRaw st.fee
      (dumpsObj tx) none st.network st.type)))
      = some ⟨st.fee, tx, none, st.network, st.type⟩ := by
    apply decodeRawR_encode st.fee tx none st.network st.type htxwf
    · intro fs hfs
      exact absurd hfs (by simp)
    · exact hnw
    · intro u hu
      rw [hty] at hu
      simp only [Option.some.injEq] at hu
      rw [← hu]
      decide
  have hraw : VaporState.transaction_raw st
      = .ok (clean_transaction_raw (b64e (dumpsTopRaw st.fee
          (dumpsObj tx) none st.network st.type))) := by
    rw [VaporState.transaction_raw, hb, hs]
    rfl
  have hst : ({ network := st.network, fee := st.fee, transaction := some tx,
                signature := none, type := st.type } : VaporState) = st := by
    rw [← hb, ← hs]
  have hfac : RefundSignature.sign env (clean_transaction_raw (b64e (dumpsTopRaw
      st.fee (dumpsObj tx) none st.network st.type))) solver
      = .ok (VaporRefundTransaction.sign env st solver) := by
    rw [RefundSignature.sign, hdec]
    show (if st.type = some (codes "vapor_refund_unsigned") then
        Except.ok (VaporRefundTransaction.sign env
          { network := st.network, fee := st.fee, transaction := some tx,
                signature := none, type := st.type } solver)
      else Except.error (SwapError.valueError
        (codes "Unsupported transaction raw type")))
      = Except.ok (VaporRefundTransaction.sign env st solver)
    rw [if_pos hty, hst]
  refine ⟨_, hraw, hfac, ?_⟩
  rw [hfac]
  rfl

/-- Witness for C1 at a concrete unsigned Vapor refund state. -/
theorem refund_signature_path_equiv_witness :
    vstA.signature = none
      ∧ vstA.type = some (codes "vapor_refund_unsigned")
      ∧ wfVaporB vstA = true
      ∧ ∃ raw, VaporState.transaction_raw vstA = .ok raw
        ∧ RefundSignature.sign venvA raw vsolverA
            = .ok (VaporRefundTransaction.sign venvA vstA vsolverA) := by
  refine ⟨rfl, rfl, by decide, ?_⟩
  obtain ⟨raw, h1, h2, h3⟩ :=
    refund_signature_path_equiv venvA vstA
      [(codes "hash", .str (codes "37b36d7b")), (codes "fee", .num 449000)]
      vsolverA rfl rfl rfl (by decide)
  exact ⟨raw, h1, h2⟩

end SwapSpec
